import Mathlib

/-!
Verification development for the sales-service repository (POS backend).

The Python source is shallowly embedded: monetary values are rationals
(the service's `Decimal` arithmetic on prices, percentages and sums is
exact on all values it manipulates), Python dicts become association
lists that preserve insertion order, SQL tables become lists of row
structures, and the ODBC connection is a small state machine recording
committed versus pending writes together with the `autocommit` flag that
`database.get_db_connection` sets to `True`.
-/

namespace SalesService

/-! ## Pricing and discount calculator (pos_router.py) -/

/-- The process-wide `ADDON_PRICES` table of pos_router.py. -/
def ADDON_PRICES : List (String × Rat) :=
  [("espressoShots", 25), ("seaSaltCream", 30), ("syrupSauces", 20)]

/-- Models `ADDON_PRICES.get(addon_name, Decimal('0.0'))`. -/
def addonPrice (name : String) : Rat :=
  match ADDON_PRICES.lookup name with
  | some p => p
  | none => 0

/-- A cart line item (pydantic model `SaleItem` of pos_router.py); the
`addons` dict is an insertion-ordered association list. -/
structure CartItem where
  name : String
  quantity : Int
  price : Rat
  category : String
  addons : List (String × Int)
deriving Repr, DecidableEq

/-- The request body of the create-sale endpoint (pydantic model `Sale`). -/
structure SaleReq where
  cartItems : List CartItem
  orderType : String
  paymentMethod : String
  appliedDiscounts : List String
  gcashReference : Option String
deriving Repr, DecidableEq

/-- A row of the `discounts` table. -/
structure Discount where
  id : Int
  name : String
  discount_type : String
  discount_value : Option Rat
  minimum_spend : Option Rat
  status : String
deriving Repr, DecidableEq

/-- Addon surcharge of one cart item: the inner loop
`for addon_name, quantity in item.addons.items()` accumulating
`ADDON_PRICES.get(addon_name, 0) * quantity`. -/
def itemAddonsPrice (addons : List (String × Int)) : Rat :=
  addons.foldl (fun acc a => acc + addonPrice a.1 * a.2) 0

/-- The subtotal loop of `calculate_totals_and_discounts`:
`subtotal += (item_price + addons_price) * item.quantity`. -/
def cartSubtotal (items : List CartItem) : Rat :=
  items.foldl (fun acc it => acc + (it.price + itemAddonsPrice it.addons) * it.quantity) 0

/-- One discount's contribution once the minimum-spend gate passed:
percentage discounts give `subtotal * value / 100`, fixed amounts give
`value`, anything else (including a missing value) gives zero. -/
def discountContribution (subtotal : Rat) (d : Discount) : Rat :=
  if d.discount_type = "percentage" then
    match d.discount_value with
    | some v => subtotal * v / 100
    | none => 0
  else if d.discount_type = "fixed_amount" then
    match d.discount_value with
    | some v => v
    | none => 0
  else 0

/-- An attribution entry appended to `applied_discounts_details`. -/
structure Attribution where
  id : Int
  amount : Rat
deriving Repr, DecidableEq

/-- The `for discount in valid_discounts` loop: skip rows failing the
minimum-spend gate, otherwise add the contribution to the running total
and append the raw attribution. -/
def applyDiscounts (subtotal : Rat) (valid : List Discount) : Rat × List Attribution :=
  valid.foldl
    (fun acc d =>
      if (d.minimum_spend.getD 0) ≤ subtotal then
        (acc.1 + discountContribution subtotal d,
         acc.2 ++ [⟨d.id, discountContribution subtotal d⟩])
      else acc)
    (0, [])

/-- The SQL fetch `WHERE name IN (...) AND status = 'active'`, modelled
as a filter of the `discounts` table in table order. -/
def fetchValidDiscounts (table : List Discount) (names : List String) : List Discount :=
  table.filter (fun d => names.contains d.name && d.status == "active")

/-- `calculate_totals_and_discounts` of pos_router.py: returns
(subtotal, final discount clamped by `min(total, subtotal)`, raw
attribution list). -/
def calculate_totals_and_discounts (table : List Discount) (sale : SaleReq) :
    Rat × Rat × List Attribution :=
  let subtotal := cartSubtotal sale.cartItems
  if sale.appliedDiscounts = [] then
    (subtotal, 0, [])
  else
    let valid := fetchValidDiscounts table sale.appliedDiscounts
    let ad := applyDiscounts subtotal valid
    (subtotal, min ad.1 subtotal, ad.2)

/-! ## Relational store

Two distinct line-item tables exist because the source addresses two
distinct names: `create_sale` inserts into `SaleItem` (singular, see the
FIX comment at pos_router.py line 179) while `save_online_order`,
`get_processing_orders` and `get_all_orders` address `SaleItems`
(plural).  The serialized-JSON `Addons` column stores an addon mapping
or SQL NULL; the JSON round trip is modelled by storing the mapping
itself. -/

/-- A row of the `Sales` header table. -/
structure SaleRow where
  saleID : Int
  orderType : String
  paymentMethod : String
  cashierName : String
  totalDiscountAmount : Rat
  gcashReference : Option String
  status : String
  createdAt : Nat
deriving Repr, DecidableEq

/-- A line-item row (shape shared by the `SaleItem` and `SaleItems` tables). -/
structure SaleItemRow where
  saleItemID : Int
  saleID : Int
  itemName : String
  quantity : Int
  unitPrice : Rat
  category : String
  addons : Option (List (String × Int))
deriving Repr, DecidableEq

/-- A row of the `SaleDiscounts` table. -/
structure SaleDiscountRow where
  saleID : Int
  discountID : Int
  appliedAmount : Rat
deriving Repr, DecidableEq

/-- The database: the `Sales`, `SaleItem` (singular), `SaleItems`
(plural), `SaleDiscounts` and `discounts` tables. -/
structure Database where
  sales : List SaleRow
  saleItem : List SaleItemRow
  saleItems : List SaleItemRow
  saleDiscounts : List SaleDiscountRow
  discounts : List Discount
deriving Repr, DecidableEq

/-- Identity value generated for the next `Sales` insert: one more than
the largest existing SaleID (so always fresh and positive). -/
def nextSaleId (db : Database) : Int :=
  (db.sales.foldl (fun m s => max m s.saleID) 0) + 1

/-! ## Connection model

`database.get_db_connection` opens every connection with
`autocommit=True`.  Under ODBC semantics a statement executed on an
autocommit connection outside an explicit transaction is durably
committed at once, `commit()` is then a no-op and `rollback()` undoes
nothing.  The `conn.begin()` call that `save_online_order` makes names a
method the connection type does not have, so it raises instead of
opening a transaction. -/

/-- Connection state: the durably committed database, the pending view
seen by the connection, whether an explicit transaction is open, and the
autocommit flag. -/
structure Conn where
  committed : Database
  pending : Database
  inTxn : Bool
  autocommit : Bool
deriving Repr, DecidableEq

/-- Models `database.get_db_connection()`: a fresh connection with
`autocommit=True`. -/
def get_db_connection (db : Database) : Conn :=
  { committed := db, pending := db, inTxn := false, autocommit := true }

/-- Execute one write statement: it lands in the pending view and, on an
autocommit connection with no explicit transaction open, is committed
immediately. -/
def execWrite (c : Conn) (w : Database → Database) : Conn :=
  let p := w c.pending
  if c.autocommit && !c.inTxn then { c with pending := p, committed := p }
  else { c with pending := p }

/-- Models `await conn.begin()`: neither `aioodbc.Connection` nor the
underlying `pyodbc.Connection` exposes a `begin()` method (explicit
transactions in pyodbc are driven through the autocommit attribute, and
the transactional `begin()` exists only in the unused `aioodbc.sa`
SQLAlchemy layer), so the call raises `AttributeError` at once, before
any statement runs.  The raise is modelled as the error case carrying
the untouched connection. -/
def connBegin (c : Conn) : Except Conn Conn := .error c

/-- Models `conn.commit()`. -/
def connCommit (c : Conn) : Conn :=
  { c with committed := c.pending, inTxn := false }

/-- Models `conn.rollback()`: discards only uncommitted pending writes. -/
def connRollback (c : Conn) : Conn :=
  { c with pending := c.committed, inTxn := false }

/-- Run a list of write statements in order; `failAt = some i` makes the
i-th statement (0-based) raise instead of taking effect, returning the
connection as it stands at the raise. -/
def runWrites : Conn → Nat → Option Nat → List (Database → Database) → Except Conn Conn
  | c, _, _, [] => .ok c
  | c, i, failAt, w :: ws =>
    if failAt = some i then .error c
    else runWrites (execWrite c w) (i + 1) failAt ws

/-! ## Users and outcomes -/

/-- The identity-service principal: the `current_user` dict, read with
`.get("userRole")` and `.get("username", ...)`, either of which may be
absent. -/
structure User where
  userRole : Option String
  username : Option String
deriving Repr, DecidableEq

/-- HTTP-level failure outcomes distinguished by the routers. -/
inductive HErr where
  | forbidden (detail : String)
  | badRequest (detail : String)
  | notFound (detail : String)
  | internalError (detail : String)
deriving Repr, DecidableEq

/-- Python truthiness of `current_user.get("userRole") not in allowed_roles`:
a missing role is never in the list. -/
def roleAllowed (u : User) (allowed : List String) : Bool :=
  match u.userRole with
  | some r => allowed.contains r
  | none => false

/-! ## Create-sale write path (pos_router.create_sale) -/

/-- Identity value for the next line-item insert into a given table. -/
def nextSaleItemId (t : List SaleItemRow) : Int :=
  (t.foldl (fun m r => max m r.saleItemID) 0) + 1

/-- The header insert of `create_sale`: the statement names neither
`Status` nor `CreatedAt`, so those columns take the schema defaults,
passed here as `defaultStatus` and `now`. -/
def insertSaleHeader (sid : Int) (sale : SaleReq) (cashier : String) (discount : Rat)
    (defaultStatus : String) (now : Nat) (db : Database) : Database :=
  { db with sales := db.sales ++
      [{ saleID := sid, orderType := sale.orderType, paymentMethod := sale.paymentMethod,
         cashierName := cashier, totalDiscountAmount := discount,
         gcashReference := sale.gcashReference, status := defaultStatus, createdAt := now }] }

/-- The per-item insert of `create_sale`, addressed to the table named
`SaleItem` (singular); `addons_str` is NULL when the addon dict is
falsy, else its serialization. -/
def insertSaleItemSingular (sid : Int) (it : CartItem) (db : Database) : Database :=
  { db with saleItem := db.saleItem ++
      [{ saleItemID := nextSaleItemId db.saleItem, saleID := sid, itemName := it.name,
         quantity := it.quantity, unitPrice := it.price, category := it.category,
         addons := if it.addons = [] then none else some it.addons }] }

/-- The per-discount insert of `create_sale` into `SaleDiscounts`. -/
def insertSaleDiscount (sid : Int) (a : Attribution) (db : Database) : Database :=
  { db with saleDiscounts := db.saleDiscounts ++
      [{ saleID := sid, discountID := a.id, appliedAmount := a.amount }] }

/-- Outcome of one inventory-deduction notification helper: the
`try/except` swallows every error and only logs, so the helper always
returns; the log line is the only trace of a failure. -/
inductive NotifyLog where
  | success
  | syncFailure (msg : String)
deriving Repr, DecidableEq

/-- Models `trigger_ingredients_deduction`: a failing downstream call is
caught and logged as INGREDIENT-SYNC-FAILURE, never re-raised. -/
def trigger_ingredients_deduction (callResult : Except String Unit) : NotifyLog :=
  match callResult with
  | .ok _ => .success
  | .error e => .syncFailure e

/-- Models `trigger_materials_deduction`: a failing downstream call is
caught and logged as MATERIAL-SYNC-FAILURE, never re-raised. -/
def trigger_materials_deduction (callResult : Except String Unit) : NotifyLog :=
  match callResult with
  | .ok _ => .success
  | .error e => .syncFailure e

/-- The JSON body returned by a successful `create_sale`. -/
structure SaleResponse where
  saleId : Int
  subtotal : Rat
  discountAmount : Rat
  finalTotal : Rat
deriving Repr, DecidableEq

instance {ε α : Type} [DecidableEq ε] [DecidableEq α] : DecidableEq (Except ε α)
  | .ok a, .ok b =>
    if h : a = b then .isTrue (by rw [h]) else .isFalse (by intro hh; cases hh; exact h rfl)
  | .ok _, .error _ => .isFalse (by intro h; cases h)
  | .error _, .ok _ => .isFalse (by intro h; cases h)
  | .error a, .error b =>
    if h : a = b then .isTrue (by rw [h]) else .isFalse (by intro hh; cases hh; exact h rfl)

/-- Full observable effect of one `create_sale` request: the HTTP
response, the durable database afterwards, and the two notification log
entries (`none` when the trigger was never reached). -/
structure CreateSaleRun where
  response : Except HErr SaleResponse
  db : Database
  ingredientLog : Option NotifyLog
  materialLog : Option NotifyLog
deriving Repr, DecidableEq

/-- The `allowed_roles` list of `create_sale`. -/
def createSaleAllowedRoles : List String := ["admin", "manager", "staff", "cashier"]

/-- The opaque 500 detail `create_sale` reports for any non-HTTP
exception caught during the write sequence. -/
def opaqueSaleError : String := "An unexpected error occurred while processing the sale."

/-- `create_sale` of pos_router.py.  `failAt = some i` injects a
database exception into the i-th write statement (0 is the header
insert, then one statement per cart item, then one per attribution);
`ingCall`/`matCall` are the outcomes of the two downstream notification
requests.  The connection is the autocommit connection of
`get_db_connection` and `create_sale` never calls `begin()`, so each
write statement is durably committed as it executes and the `rollback()`
in the exception handler undoes nothing. -/
def create_sale (db : Database) (user : User) (sale : SaleReq)
    (defaultStatus : String) (now : Nat) (failAt : Option Nat)
    (ingCall matCall : Except String Unit) : CreateSaleRun :=
  if !(roleAllowed user createSaleAllowedRoles) then
    { response := .error (.forbidden "You do not have permission to create a sale."),
      db := db, ingredientLog := none, materialLog := none }
  else
    let conn := get_db_connection db
    let res := calculate_totals_and_discounts conn.pending.discounts sale
    let subtotal := res.1
    let total_discount := res.2.1
    let discount_details := res.2.2
    let cashier_name := user.username.getD "SystemUser"
    let sale_id := nextSaleId conn.pending
    let writes :=
      insertSaleHeader sale_id sale cashier_name total_discount defaultStatus now
        :: sale.cartItems.map (fun it => insertSaleItemSingular sale_id it)
        ++ discount_details.map (fun a => insertSaleDiscount sale_id a)
    match runWrites conn 0 failAt writes with
    | .error c =>
      let c2 := connRollback c
      { response := .error (.internalError opaqueSaleError),
        db := c2.committed, ingredientLog := none, materialLog := none }
    | .ok c =>
      let c2 := connCommit c
      let ingLog := trigger_ingredients_deduction ingCall
      let matLog := trigger_materials_deduction matCall
      { response := .ok { saleId := sale_id, subtotal := subtotal,
                          discountAmount := total_discount,
                          finalTotal := subtotal - total_discount },
        db := c2.committed, ingredientLog := some ingLog, materialLog := some matLog }

/-! ## Online-order write path (purchase_order.save_online_order) -/

/-- An item of an online order (pydantic model `OnlineSaleItem`). -/
structure OnlineSaleItem where
  name : String
  quantity : Int
  price : Rat
  category : String
  addons : List (String × Int)
deriving Repr, DecidableEq

/-- The request body of the online-order endpoint (pydantic model
`OnlineOrderRequest`). -/
structure OnlineOrderRequest where
  online_order_id : Int
  customer_name : String
  order_type : String
  payment_method : String
  subtotal : Rat
  total_amount : Rat
  status : String
  items : List OnlineSaleItem
deriving Repr, DecidableEq

/-- The header INSERT statement in the source of `save_online_order`:
the caller's `customer_name` becomes CashierName, the discount column
receives `subtotal - total_amount`, and the external id is embedded in
the GCash-reference column with the ONLINE- prefix.  Unreachable at
runtime: the `conn.begin()` call placed before it always raises. -/
def insertOnlineSaleHeader (sid : Int) (o : OnlineOrderRequest) (now : Nat)
    (db : Database) : Database :=
  { db with sales := db.sales ++
      [{ saleID := sid, orderType := o.order_type, paymentMethod := o.payment_method,
         cashierName := o.customer_name,
         totalDiscountAmount := o.subtotal - o.total_amount,
         gcashReference := some ("ONLINE-" ++ toString o.online_order_id),
         status := o.status, createdAt := now }] }

/-- The per-item INSERT statement in the source of `save_online_order`,
addressed to the table named `SaleItems` (plural).  Unreachable at
runtime, like the header insert. -/
def insertSaleItemPlural (sid : Int) (it : OnlineSaleItem) (db : Database) : Database :=
  { db with saleItems := db.saleItems ++
      [{ saleItemID := nextSaleItemId db.saleItems, saleID := sid, itemName := it.name,
         quantity := it.quantity, unitPrice := it.price, category := it.category,
         addons := if it.addons = [] then none else some it.addons }] }

/-- The `allowed_roles` list of `save_online_order` — it omits
`manager`. -/
def saveOnlineOrderAllowedRoles : List String := ["admin", "staff", "cashier"]

/-- `save_online_order` of purchase_order.py: role gate, then
`await conn.begin()` — which raises `AttributeError` on every call (the
connection type has no such method), so control always reaches the
except handler before the first INSERT: the handler's `rollback()`
finds an untouched fresh connection and the caller receives the 500
with the store exactly as before.  The header insert, the `SaleItems`
inserts and the commit that follow `begin()` in the source are kept in
the unreachable branch to mirror the source text: they are dead code on
this connection type. -/
def save_online_order (db : Database) (user : User) (order : OnlineOrderRequest)
    (now : Nat) (failAt : Option Nat) : Except HErr (String × Int) × Database :=
  if !(roleAllowed user saveOnlineOrderAllowedRoles) then
    (.error (.forbidden "You do not have permission to create orders."), db)
  else
    match connBegin (get_db_connection db) with
    | .error c =>
      let c2 := connRollback c
      (.error (.internalError "An error occurred while saving the online order"), c2.committed)
    | .ok conn =>
      let new_sale_id := nextSaleId conn.pending
      let writes :=
        insertOnlineSaleHeader new_sale_id order now
          :: order.items.map (fun it => insertSaleItemPlural new_sale_id it)
      match runWrites conn 0 failAt writes with
      | .error c =>
        let c2 := connRollback c
        (.error (.internalError "An error occurred while saving the online order"), c2.committed)
      | .ok c =>
        let c2 := connCommit c
        (.ok ("Online order successfully saved to POS", new_sale_id), c2.committed)

/-! ## Status update (purchase_order.update_order_status) -/

/-- The closed `Literal` set of the `UpdateOrderStatusRequest` body. -/
inductive NewStatus where
  | completed
  | cancelled
  | processing
deriving Repr, DecidableEq

/-- String stored for each member of the closed status set. -/
def NewStatus.toStr : NewStatus → String
  | .completed => "completed"
  | .cancelled => "cancelled"
  | .processing => "processing"

/-- Models `order_id.split('-')[-1]`: the characters after the last
dash, or the whole string when it has no dash. -/
def lastSegment (s : String) : String :=
  String.mk (s.data.foldl (fun acc c => if c = Char.ofNat 45 then [] else acc ++ [c]) [])

/-- Models Python `int(...)` on a string: optional surrounding
whitespace, an optional single sign, then at least one decimal digit
(the underscore grouping Python additionally tolerates between digits is
not modelled). -/
def pyParseInt (s : String) : Option Int :=
  let t := ((s.data.dropWhile Char.isWhitespace).reverse.dropWhile
    Char.isWhitespace).reverse
  let core :=
    match t with
    | c :: rest => if c == Char.ofNat 45 || c == Char.ofNat 43 then rest else t
    | [] => t
  let neg : Bool :=
    match t with
    | c :: _ => c == Char.ofNat 45
    | [] => false
  if !core.isEmpty && core.all Char.isDigit then
    let n : Nat := core.foldl (fun acc c => acc * 10 + (c.toNat - 48)) 0
    some (if neg then -(n : Int) else (n : Int))
  else none

/-- The `allowed_roles` list of `update_order_status`. -/
def updateStatusAllowedRoles : List String := ["admin", "manager", "staff", "cashier"]

/-- `update_order_status` of purchase_order.py: role gate, identifier
parse (`int(order_id.split('-')[-1])`, a 400 before any database work
when it fails), then one UPDATE statement; `rowcount == 0` raises a 404,
otherwise the update is committed.  The `UpdatedAt = GETDATE()` column
the statement also sets is a timestamp the read paths never consult and
is not modelled on `SaleRow`. -/
def update_order_status (db : Database) (user : User) (order_id : String)
    (req : NewStatus) : Except HErr String × Database :=
  if !(roleAllowed user updateStatusAllowedRoles) then
    (.error (.forbidden "You do not have permission to update order status."), db)
  else
    match pyParseInt (lastSegment order_id) with
    | none =>
      (.error (.badRequest ("Invalid order ID format: " ++ order_id)), db)
    | some parsed_id =>
      let conn := get_db_connection db
      let rowcount := (conn.pending.sales.filter (fun s => s.saleID == parsed_id)).length
      let c := execWrite conn (fun d =>
        { d with sales := d.sales.map (fun s =>
            if s.saleID == parsed_id then { s with status := req.toStr } else s) })
      if rowcount == 0 then
        let c2 := connRollback c
        (.error (.notFound ("Order with ID " ++ order_id ++ " not found.")), c2.committed)
      else
        let c2 := connCommit c
        (.ok ("Order " ++ order_id ++ " status successfully updated."), c2.committed)

/-! ## Order aggregation read path (purchase_order.py)

Both query endpoints run `Sales LEFT JOIN SaleItems` (the plural table),
then fold the flat row set into per-order views keyed by SaleID in an
insertion-ordered dict.  The source keeps two dicts with identical keys
(`orders_dict` and `item_subtotals`); they are merged here into one
entry record carrying the running `subtotal` alongside the view fields,
initialized and updated under exactly the same conditions. -/

/-- Stands for `CreatedAt.strftime(...)`: an external pure formatting of
the timestamp. -/
def formatDate (t : Nat) : String := toString t

/-- A line-item view (pydantic model `ProcessingSaleItem`); `addons` is
the parsed JSON column, `{}` when the column is NULL. -/
structure ItemView where
  name : String
  quantity : Int
  price : Rat
  category : String
  addons : List (String × Int)
deriving Repr, DecidableEq

/-- A per-order view (pydantic model `ProcessingOrder`). -/
structure OrderView where
  id : String
  date : String
  items : Int
  total : Rat
  status : String
  orderType : String
  paymentMethod : String
  cashierName : String
  gcashReferenceNumber : Option String
  orderItems : List ItemView
deriving Repr, DecidableEq

/-- One row of the flat `Sales LEFT JOIN SaleItems` result: a full
header and, when the order had a matching line item, that line item
(`none` models the all-NULL item columns of an unmatched header). -/
structure JoinRow where
  sale : SaleRow
  item : Option SaleItemRow
deriving Repr, DecidableEq

/-- The LEFT JOIN: every selected header appears, once per matching
line-item row, or once with NULL item columns when none match. -/
def leftJoin (sales : List SaleRow) (items : List SaleItemRow) : List JoinRow :=
  sales.flatMap (fun s =>
    match items.filter (fun i => i.saleID == s.saleID) with
    | [] => [{ sale := s, item := none }]
    | ms => ms.map (fun i => { sale := s, item := some i }))

/-- The aggregation entry for one SaleID: the `orders_dict` value merged
with the matching `item_subtotals` value (field `subtotal`), plus the
popped pseudo-field `_totalDiscount`. -/
structure AggEntry where
  id : String
  date : String
  status : String
  orderType : String
  paymentMethod : String
  cashierName : String
  gcashReferenceNumber : Option String
  items : Int
  orderItems : List ItemView
  totalDiscount : Rat
  subtotal : Rat
deriving Repr, DecidableEq

/-- Entry created on first encounter of a SaleID.  `withGcash` is true
for `get_all_orders`, whose SELECT also carries the
GCashReferenceNumber column; `get_processing_orders` leaves the pydantic
default `None`. -/
def initEntry (withGcash : Bool) (s : SaleRow) : AggEntry :=
  { id := "SO-" ++ toString s.saleID, date := formatDate s.createdAt, status := s.status,
    orderType := s.orderType, paymentMethod := s.paymentMethod,
    cashierName := s.cashierName,
    gcashReferenceNumber := if withGcash then s.gcashReference else none,
    items := 0, orderItems := [], totalDiscount := s.totalDiscountAmount, subtotal := 0 }

/-- View of one line-item row appended to `orderItems`. -/
def itemViewOf (i : SaleItemRow) : ItemView :=
  { name := i.itemName, quantity := i.quantity, price := i.unitPrice,
    category := i.category, addons := i.addons.getD [] }

/-- Effect of one row carrying a (truthy) line item: add its quantity to
the item count, its price times quantity to the running subtotal, and
append its view. -/
def addItemRow (e : AggEntry) (i : SaleItemRow) : AggEntry :=
  { e with items := e.items + i.quantity,
           subtotal := e.subtotal + i.unitPrice * i.quantity,
           orderItems := e.orderItems ++ [itemViewOf i] }

/-- One iteration of the `for row in rows` aggregation loop: create the
entry on first encounter of the SaleID, then, when `row.SaleItemID` is
truthy (non-NULL and nonzero), fold the line item into that entry. -/
def aggStep (withGcash : Bool) (acc : List (Int × AggEntry)) (r : JoinRow) :
    List (Int × AggEntry) :=
  let acc1 := if (acc.lookup r.sale.saleID).isSome then acc
              else acc ++ [(r.sale.saleID, initEntry withGcash r.sale)]
  match r.item with
  | some i =>
    if i.saleItemID ≠ 0 then
      acc1.map (fun p => if p.1 = r.sale.saleID then (p.1, addItemRow p.2 i) else p)
    else acc1
  | none => acc1

/-- The finalization loop: `total = subtotal - _totalDiscount`. -/
def finalizeEntry (e : AggEntry) : OrderView :=
  { id := e.id, date := e.date, items := e.items, total := e.subtotal - e.totalDiscount,
    status := e.status, orderType := e.orderType, paymentMethod := e.paymentMethod,
    cashierName := e.cashierName, gcashReferenceNumber := e.gcashReferenceNumber,
    orderItems := e.orderItems }

/-- The whole aggregation: fold the flat rows into the insertion-ordered
dict, then emit the finalized views in first-seen order. -/
def aggregate (withGcash : Bool) (rows : List JoinRow) : List OrderView :=
  (rows.foldl (aggStep withGcash) []).map (fun p => finalizeEntry p.2)

/-- ORDER BY `s.CreatedAt ASC, s.SaleID ASC`. -/
def saleLEAsc (a b : SaleRow) : Prop :=
  a.createdAt < b.createdAt ∨ (a.createdAt = b.createdAt ∧ a.saleID ≤ b.saleID)

instance : DecidableRel saleLEAsc := fun _ _ =>
  inferInstanceAs (Decidable (_ ∨ _))

/-- ORDER BY `s.CreatedAt DESC, s.SaleID DESC`. -/
def saleLEDesc (a b : SaleRow) : Prop :=
  b.createdAt < a.createdAt ∨ (b.createdAt = a.createdAt ∧ b.saleID ≤ a.saleID)

instance : DecidableRel saleLEDesc := fun _ _ =>
  inferInstanceAs (Decidable (_ ∨ _))

/-- Python truthiness of the optional `cashierName` query parameter. -/
def truthy : Option String → Bool
  | some s => !s.isEmpty
  | none => false

/-- The `allowed_roles` list of `get_processing_orders`. -/
def processingQueryAllowedRoles : List String := ["admin", "manager", "staff", "cashier"]

/-- The status predicate `s.Status IN ('processing', 'completed')`. -/
def processingStatusPred (s : SaleRow) : Bool :=
  s.status == "processing" || s.status == "completed"

/-- The WHERE clause built by `get_processing_orders`: admins and
managers see every matching status and may narrow by a truthy
`cashierName` parameter; every other permitted role is compared against
`current_user.get("username")` (a missing username, i.e. SQL NULL,
matches nothing) and the parameter is never consulted. -/
def processingPred (user : User) (cashierName : Option String) (s : SaleRow) : Bool :=
  let user_role := user.userRole.getD ""
  processingStatusPred s &&
    (if user_role == "admin" || user_role == "manager" then
      (if truthy cashierName then s.cashierName == cashierName.getD "" else true)
    else
      (match user.username with
        | some u => s.cashierName == u
        | none => false))

/-- The header rows selected by the WHERE and ORDER BY clauses of
`get_processing_orders`. -/
def processingSelectedSales (db : Database) (user : User)
    (cashierName : Option String) : List SaleRow :=
  (db.sales.filter (processingPred user cashierName)).insertionSort saleLEAsc

/-- `get_processing_orders` of purchase_order.py. -/
def get_processing_orders (db : Database) (user : User) (cashierName : Option String) :
    Except HErr (List OrderView) :=
  if !(roleAllowed user processingQueryAllowedRoles) then
    .error (.forbidden "You do not have permission to view orders.")
  else
    .ok (aggregate false (leftJoin (processingSelectedSales db user cashierName) db.saleItems))

/-- The `allowed_roles` list of `get_all_orders`. -/
def allOrdersAllowedRoles : List String := ["admin", "manager"]

/-- The status predicate `s.Status IN ('completed', 'processing', 'cancelled')`. -/
def allOrdersStatusPred (s : SaleRow) : Bool :=
  s.status == "completed" || s.status == "processing" || s.status == "cancelled"

/-- The header rows selected by the WHERE and ORDER BY clauses of
`get_all_orders`. -/
def allOrdersSelectedSales (db : Database) : List SaleRow :=
  (db.sales.filter allOrdersStatusPred).insertionSort saleLEDesc

/-- `get_all_orders` of purchase_order.py. -/
def get_all_orders (db : Database) (user : User) : Except HErr (List OrderView) :=
  if !(roleAllowed user allOrdersAllowedRoles) then
    .error (.forbidden "You do not have permission to view all orders.")
  else
    .ok (aggregate true (leftJoin (allOrdersSelectedSales db) db.saleItems))

/-! ## Generic list lemmas -/

theorem foldl_add_eq_sum {α : Type} (f : α → Rat) (l : List α) (a : Rat) :
    l.foldl (fun acc x => acc + f x) a = a + (l.map f).sum := by
  induction l generalizing a with
  | nil => simp
  | cons x xs ih => simp [ih, add_assoc]

/-! ## Calculator lemmas -/

/-- The eligible rows of the attribution loop: valid discounts passing
the minimum-spend gate. -/
def eligibleOf (subtotal : Rat) (valid : List Discount) : List Discount :=
  valid.filter (fun d => (d.minimum_spend.getD 0) ≤ subtotal)

theorem applyDiscounts_eq (subtotal : Rat) (valid : List Discount) :
    applyDiscounts subtotal valid =
      ( ((eligibleOf subtotal valid).map (discountContribution subtotal)).sum,
        (eligibleOf subtotal valid).map
          (fun d => ⟨d.id, discountContribution subtotal d⟩) ) := by
  have h : ∀ (t : Rat) (l : List Attribution),
      valid.foldl
        (fun acc d =>
          if (d.minimum_spend.getD 0) ≤ subtotal then
            (acc.1 + discountContribution subtotal d,
             acc.2 ++ [⟨d.id, discountContribution subtotal d⟩])
          else acc) (t, l) =
      ( t + ((eligibleOf subtotal valid).map (discountContribution subtotal)).sum,
        l ++ (eligibleOf subtotal valid).map
          (fun d => ⟨d.id, discountContribution subtotal d⟩) ) := by
    induction valid with
    | nil => intro t l; simp [eligibleOf]
    | cons d ds ih =>
      intro t l
      by_cases hd : (d.minimum_spend.getD 0) ≤ subtotal
      · rw [List.foldl_cons, if_pos hd, ih]
        simp [eligibleOf, List.filter_cons, hd, add_assoc]
      · rw [List.foldl_cons, if_neg hd, ih]
        simp [eligibleOf, List.filter_cons, hd]
  unfold applyDiscounts
  simpa using h 0 []

theorem calc_subtotal_eq (table : List Discount) (sale : SaleReq) :
    (calculate_totals_and_discounts table sale).1 = cartSubtotal sale.cartItems := by
  unfold calculate_totals_and_discounts
  split <;> rfl

theorem calc_discount_and_details (table : List Discount) (sale : SaleReq)
    (h : sale.appliedDiscounts ≠ []) :
    (calculate_totals_and_discounts table sale).2.1 =
      min ((applyDiscounts (cartSubtotal sale.cartItems)
             (fetchValidDiscounts table sale.appliedDiscounts)).1)
          (cartSubtotal sale.cartItems) ∧
    (calculate_totals_and_discounts table sale).2.2 =
      (applyDiscounts (cartSubtotal sale.cartItems)
        (fetchValidDiscounts table sale.appliedDiscounts)).2 := by
  unfold calculate_totals_and_discounts
  rw [if_neg h]
  exact ⟨rfl, rfl⟩

theorem calc_empty (table : List Discount) (sale : SaleReq)
    (h : sale.appliedDiscounts = []) :
    (calculate_totals_and_discounts table sale).2.1 = 0 ∧
    (calculate_totals_and_discounts table sale).2.2 = [] := by
  unfold calculate_totals_and_discounts
  rw [if_pos h]
  exact ⟨rfl, rfl⟩

theorem calc_details_sum (table : List Discount) (sale : SaleReq)
    (h : sale.appliedDiscounts ≠ []) :
    (calculate_totals_and_discounts table sale).2.1 =
      min (((calculate_totals_and_discounts table sale).2.2.map Attribution.amount).sum)
          (calculate_totals_and_discounts table sale).1 := by
  obtain ⟨h1, h2⟩ := calc_discount_and_details table sale h
  rw [h1, h2, calc_subtotal_eq, applyDiscounts_eq]
  have hc : (Attribution.amount ∘ fun d =>
      (⟨d.id, discountContribution (cartSubtotal sale.cartItems) d⟩ : Attribution)) =
      discountContribution (cartSubtotal sale.cartItems) := rfl
  rw [List.map_map, hc]

/-! ## Demo inputs used by scenario conjuncts and counterexamples -/

/-- The two scenario discounts of the spec: a 50 percent discount and a
fixed 300 discount, both active, no minimum spend. -/
def scenarioDiscounts : List Discount :=
  [ { id := 1, name := "Half", discount_type := "percentage",
      discount_value := some 50, minimum_spend := none, status := "active" },
    { id := 2, name := "Big", discount_type := "fixed_amount",
      discount_value := some 300, minimum_spend := none, status := "active" } ]

/-- The scenario cart: one Latte at 100 with one espresso shot, quantity
two, so the subtotal is 250. -/
def scenarioSale : SaleReq :=
  { cartItems := [ { name := "Latte", quantity := 2, price := 100, category := "drink",
                     addons := [("espressoShots", 1)] } ],
    orderType := "dine-in", paymentMethod := "cash",
    appliedDiscounts := ["Half", "Big"], gcashReference := none }

/-- A degenerate cart with a negative unit price and no requested
discounts: its subtotal is negative while the calculator returns a zero
discount without clamping. -/
def negPriceSale : SaleReq :=
  { cartItems := [ { name := "Refund", quantity := 1, price := -1, category := "drink",
                     addons := [] } ],
    orderType := "dine-in", paymentMethod := "cash",
    appliedDiscounts := [], gcashReference := none }

/-- C4, counterexample: on a cart whose subtotal is negative and with no
requested discounts, the final discount (0) strictly exceeds the
subtotal (-1), so the universally quantified clamp invariant of the
claim is false as stated. -/
theorem claim_C4_counterexample :
    ¬ ((calculate_totals_and_discounts [] negPriceSale).2.1 ≤
       (calculate_totals_and_discounts [] negPriceSale).1) := by
  norm_num +decide [calculate_totals_and_discounts, cartSubtotal, itemAddonsPrice,
    addonPrice, ADDON_PRICES, fetchValidDiscounts, applyDiscounts,
    discountContribution, negPriceSale]

/-- C4, amended: whenever any discounts are requested, the final
discount equals the raw eligible contributions clamped by
`min (total, subtotal)` and hence never exceeds the subtotal; with no
requested discounts the final discount is 0 (which can exceed only a
negative subtotal).  In every case the attribution list records each
eligible discount's raw, un-rescaled contribution.  On the spec's
scenario (subtotal 250, contributions 125 and 300) the final discount is
the clamped 250, the final total is 0, and the attributions stay 125 and
300. -/
theorem claim_C4_clamp_and_raw_attribution :
    (∀ (table : List Discount) (sale : SaleReq), sale.appliedDiscounts ≠ [] →
      (calculate_totals_and_discounts table sale).2.1 =
        min (((calculate_totals_and_discounts table sale).2.2.map Attribution.amount).sum)
            (calculate_totals_and_discounts table sale).1 ∧
      (calculate_totals_and_discounts table sale).2.1 ≤
        (calculate_totals_and_discounts table sale).1) ∧
    (∀ (table : List Discount) (sale : SaleReq), sale.appliedDiscounts = [] →
      (calculate_totals_and_discounts table sale).2.1 = 0 ∧
      (calculate_totals_and_discounts table sale).2.2 = []) ∧
    (∀ (table : List Discount) (sale : SaleReq),
      (calculate_totals_and_discounts table sale).2.2 =
        (eligibleOf (cartSubtotal sale.cartItems)
            (fetchValidDiscounts table sale.appliedDiscounts)).map
          (fun d => ⟨d.id, discountContribution (cartSubtotal sale.cartItems) d⟩) ∨
      (sale.appliedDiscounts = [] ∧
        (calculate_totals_and_discounts table sale).2.2 = [])) ∧
    (calculate_totals_and_discounts scenarioDiscounts scenarioSale =
      (250, 250, [⟨1, 125⟩, ⟨2, 300⟩]) ∧
     (calculate_totals_and_discounts scenarioDiscounts scenarioSale).1 -
       (calculate_totals_and_discounts scenarioDiscounts scenarioSale).2.1 = 0) := by
  have hs : calculate_totals_and_discounts scenarioDiscounts scenarioSale =
      (250, 250, [⟨1, 125⟩, ⟨2, 300⟩]) := by
    norm_num +decide [calculate_totals_and_discounts, cartSubtotal, itemAddonsPrice,
      addonPrice, ADDON_PRICES, fetchValidDiscounts, applyDiscounts,
      discountContribution, scenarioDiscounts, scenarioSale, List.lookup]
  refine ⟨?_, ?_, ?_, hs, by rw [hs]; norm_num⟩
  · intro table sale h
    refine ⟨calc_details_sum table sale h, ?_⟩
    rw [(calc_discount_and_details table sale h).1, calc_subtotal_eq]
    exact min_le_right _ _
  · intro table sale h
    exact calc_empty table sale h
  · intro table sale
    by_cases h : sale.appliedDiscounts = []
    · exact Or.inr ⟨h, (calc_empty table sale h).2⟩
    · left
      rw [(calc_discount_and_details table sale h).2, applyDiscounts_eq]

/-- C4, witness: the amended theorem applied at the scenario input. -/
theorem claim_C4_witness :
    (calculate_totals_and_discounts scenarioDiscounts scenarioSale).2.1 =
      min (((calculate_totals_and_discounts scenarioDiscounts scenarioSale).2.2.map
             Attribution.amount).sum)
          (calculate_totals_and_discounts scenarioDiscounts scenarioSale).1 :=
  (claim_C4_clamp_and_raw_attribution.1 scenarioDiscounts scenarioSale (by decide)).1

/-- C6: the calculator's subtotal is the sum over cart items of (unit
price plus addon surcharge) times quantity, where the surcharge sums
catalog price times requested quantity over addons found in
`ADDON_PRICES` and addon names absent from the catalog contribute zero
(no error is raised: the calculator is a total function). -/
theorem claim_C6_subtotal_formula (table : List Discount) (sale : SaleReq) :
    (calculate_totals_and_discounts table sale).1 =
      (sale.cartItems.map (fun it =>
        (it.price +
          (it.addons.map (fun a =>
            match ADDON_PRICES.lookup a.1 with
            | some p => p * (a.2 : Rat)
            | none => 0)).sum) * (it.quantity : Rat))).sum := by
  rw [calc_subtotal_eq]
  unfold cartSubtotal
  rw [foldl_add_eq_sum, zero_add]
  have hfun : (fun it : CartItem => (it.price + itemAddonsPrice it.addons) * (it.quantity : Rat)) =
      (fun it : CartItem =>
        (it.price +
          (it.addons.map (fun a =>
            match ADDON_PRICES.lookup a.1 with
            | some p => p * (a.2 : Rat)
            | none => 0)).sum) * (it.quantity : Rat)) := by
    funext it
    have ha : itemAddonsPrice it.addons =
        (it.addons.map (fun a =>
          match ADDON_PRICES.lookup a.1 with
          | some p => p * (a.2 : Rat)
          | none => 0)).sum := by
      unfold itemAddonsPrice
      rw [foldl_add_eq_sum, zero_add]
      have hb : (fun a : String × Int => addonPrice a.1 * (a.2 : Rat)) =
          (fun a : String × Int =>
            match ADDON_PRICES.lookup a.1 with
            | some p => p * (a.2 : Rat)
            | none => 0) := by
        funext a
        unfold addonPrice
        cases ADDON_PRICES.lookup a.1 <;> simp
      rw [hb]
    rw [ha]
  rw [hfun]

/-- C6, witness: the subtotal formula evaluated on the scenario cart,
whose addon dict names one catalog addon. -/
theorem claim_C6_witness :
    (calculate_totals_and_discounts scenarioDiscounts scenarioSale).1 = 250 := by
  rw [claim_C6_subtotal_formula scenarioDiscounts scenarioSale]
  norm_num +decide [scenarioSale, ADDON_PRICES, List.lookup]

/-! ## Write-path lemmas -/

/-- Sequential application of write statements to a database. -/
def applySeq (db : Database) (ws : List (Database → Database)) : Database :=
  ws.foldl (fun d w => w d) db

theorem applySeq_nil (db : Database) : applySeq db [] = db := rfl

theorem applySeq_cons (db : Database) (w : Database → Database)
    (ws : List (Database → Database)) :
    applySeq db (w :: ws) = applySeq (w db) ws := rfl

theorem applySeq_append (db : Database) (ws1 ws2 : List (Database → Database)) :
    applySeq db (ws1 ++ ws2) = applySeq (applySeq db ws1) ws2 := by
  simp [applySeq, List.foldl_append]

theorem runWrites_none (ws : List (Database → Database)) :
    ∀ (c : Conn) (i : Nat), runWrites c i none ws = .ok (ws.foldl execWrite c) := by
  induction ws with
  | nil => intro c i; rfl
  | cons w ws ih =>
    intro c i
    rw [runWrites, if_neg (by simp), ih]
    rfl

theorem execWrite_auto (c : Conn) (w : Database → Database)
    (h1 : c.autocommit = true) (h2 : c.inTxn = false) :
    execWrite c w =
      { committed := w c.pending, pending := w c.pending,
        inTxn := false, autocommit := true } := by
  unfold execWrite
  rw [h1, h2]
  simp

theorem foldl_execWrite_auto (ws : List (Database → Database)) :
    ∀ (c : Conn), c.autocommit = true → c.inTxn = false → c.committed = c.pending →
      ws.foldl execWrite c =
        { committed := applySeq c.pending ws, pending := applySeq c.pending ws,
          inTxn := false, autocommit := true } := by
  induction ws with
  | nil =>
    intro c h1 h2 h3
    rw [List.foldl_nil, applySeq_nil]
    cases c
    simp_all
  | cons w ws ih =>
    intro c h1 h2 h3
    rw [List.foldl_cons, execWrite_auto c w h1 h2, applySeq_cons]
    exact ih _ rfl rfl rfl

/-- The write statements issued by a successful `create_sale`. -/
def csWrites (db : Database) (user : User) (sale : SaleReq)
    (defaultStatus : String) (now : Nat) : List (Database → Database) :=
  insertSaleHeader (nextSaleId db) sale (user.username.getD "SystemUser")
      (calculate_totals_and_discounts db.discounts sale).2.1 defaultStatus now
    :: sale.cartItems.map (fun it => insertSaleItemSingular (nextSaleId db) it)
    ++ (calculate_totals_and_discounts db.discounts sale).2.2.map
        (fun a => insertSaleDiscount (nextSaleId db) a)

/-- The header row a successful `create_sale` commits. -/
def csHeaderRow (db : Database) (user : User) (sale : SaleReq)
    (defaultStatus : String) (now : Nat) : SaleRow :=
  { saleID := nextSaleId db, orderType := sale.orderType,
    paymentMethod := sale.paymentMethod,
    cashierName := user.username.getD "SystemUser",
    totalDiscountAmount := (calculate_totals_and_discounts db.discounts sale).2.1,
    gcashReference := sale.gcashReference, status := defaultStatus, createdAt := now }

theorem create_sale_ok (db : Database) (user : User) (sale : SaleReq)
    (defaultStatus : String) (now : Nat) (ing mat : Except String Unit)
    (h : roleAllowed user createSaleAllowedRoles = true) :
    create_sale db user sale defaultStatus now none ing mat =
      { response := .ok
          { saleId := nextSaleId db,
            subtotal := (calculate_totals_and_discounts db.discounts sale).1,
            discountAmount := (calculate_totals_and_discounts db.discounts sale).2.1,
            finalTotal := (calculate_totals_and_discounts db.discounts sale).1 -
              (calculate_totals_and_discounts db.discounts sale).2.1 },
        db := applySeq db (csWrites db user sale defaultStatus now),
        ingredientLog := some (trigger_ingredients_deduction ing),
        materialLog := some (trigger_materials_deduction mat) } := by
  unfold create_sale
  rw [h]
  simp only [Bool.not_true, Bool.false_eq_true, if_false]
  rw [runWrites_none, foldl_execWrite_auto _ (get_db_connection db) rfl rfl rfl]
  rfl

/-- Per-table effect of an item-insert sequence into the singular
`SaleItem` table: every other table is untouched and the table gains one
row per cart item, all owned by the given SaleID. -/
theorem itemsWrites_effect (sid : Int) (its : List CartItem) :
    ∀ db : Database,
      (applySeq db (its.map (insertSaleItemSingular sid))).sales = db.sales ∧
      (applySeq db (its.map (insertSaleItemSingular sid))).saleItems = db.saleItems ∧
      (applySeq db (its.map (insertSaleItemSingular sid))).saleDiscounts = db.saleDiscounts ∧
      (applySeq db (its.map (insertSaleItemSingular sid))).discounts = db.discounts ∧
      ∃ added : List SaleItemRow,
        (applySeq db (its.map (insertSaleItemSingular sid))).saleItem =
          db.saleItem ++ added ∧
        added.length = its.length ∧ ∀ r ∈ added, r.saleID = sid := by
  induction its with
  | nil =>
    intro db
    exact ⟨rfl, rfl, rfl, rfl, [], by simp [applySeq_nil], rfl, by simp⟩
  | cons it its ih =>
    intro db
    rw [List.map_cons, applySeq_cons]
    obtain ⟨h1, h2, h3, h4, added, h5, h6, h7⟩ := ih (insertSaleItemSingular sid it db)
    refine ⟨h1, h2, h3, h4,
      { saleItemID := nextSaleItemId db.saleItem, saleID := sid, itemName := it.name,
        quantity := it.quantity, unitPrice := it.price, category := it.category,
        addons := if it.addons = [] then none else some it.addons } :: added, ?_, ?_, ?_⟩
    · rw [h5]
      simp [insertSaleItemSingular]
    · simp [h6]
    · intro r hr
      rcases List.mem_cons.mp hr with h | h
      · rw [h]
      · exact h7 r h

/-- Per-table effect of an attribution-insert sequence into
`SaleDiscounts`: every other table is untouched and the table gains
exactly the attribution rows. -/
theorem discWrites_effect (sid : Int) (as : List Attribution) :
    ∀ db : Database,
      (applySeq db (as.map (insertSaleDiscount sid))).sales = db.sales ∧
      (applySeq db (as.map (insertSaleDiscount sid))).saleItem = db.saleItem ∧
      (applySeq db (as.map (insertSaleDiscount sid))).saleItems = db.saleItems ∧
      (applySeq db (as.map (insertSaleDiscount sid))).discounts = db.discounts ∧
      (applySeq db (as.map (insertSaleDiscount sid))).saleDiscounts =
        db.saleDiscounts ++ as.map
          (fun a => { saleID := sid, discountID := a.id, appliedAmount := a.amount }) := by
  induction as with
  | nil =>
    intro db
    exact ⟨rfl, rfl, rfl, rfl, by simp [applySeq_nil]⟩
  | cons a as ih =>
    intro db
    rw [List.map_cons, applySeq_cons]
    obtain ⟨h1, h2, h3, h4, h5⟩ := ih (insertSaleDiscount sid a db)
    refine ⟨h1, h2, h3, h4, ?_⟩
    rw [h5]
    simp [insertSaleDiscount]

/-- The committed database of a successful `create_sale`: the header is
appended to `Sales`, the cart items all land in the singular `SaleItem`
table owned by the new SaleID, the attribution rows land in
`SaleDiscounts`, and the plural `SaleItems` table (the one the read
queries join) is untouched. -/
theorem csWrites_db (db : Database) (user : User) (sale : SaleReq)
    (defaultStatus : String) (now : Nat) :
    (applySeq db (csWrites db user sale defaultStatus now)).sales =
      db.sales ++ [csHeaderRow db user sale defaultStatus now] ∧
    (applySeq db (csWrites db user sale defaultStatus now)).saleItems = db.saleItems ∧
    (applySeq db (csWrites db user sale defaultStatus now)).saleDiscounts =
      db.saleDiscounts ++
        (calculate_totals_and_discounts db.discounts sale).2.2.map
          (fun a => { saleID := nextSaleId db, discountID := a.id,
                      appliedAmount := a.amount }) ∧
    (∃ added : List SaleItemRow,
      (applySeq db (csWrites db user sale defaultStatus now)).saleItem =
        db.saleItem ++ added ∧
      added.length = sale.cartItems.length ∧ ∀ r ∈ added, r.saleID = nextSaleId db) := by
  unfold csWrites
  rw [List.cons_append, applySeq_cons, applySeq_append]
  obtain ⟨i1, i2, i3, i4, added, i5, i6, i7⟩ :=
    itemsWrites_effect (nextSaleId db) sale.cartItems
      (insertSaleHeader (nextSaleId db) sale (user.username.getD "SystemUser")
        (calculate_totals_and_discounts db.discounts sale).2.1 defaultStatus now db)
  obtain ⟨d1, d2, d3, d4, d5⟩ :=
    discWrites_effect (nextSaleId db)
      (calculate_totals_and_discounts db.discounts sale).2.2
      (applySeq
        (insertSaleHeader (nextSaleId db) sale (user.username.getD "SystemUser")
          (calculate_totals_and_discounts db.discounts sale).2.1 defaultStatus now db)
        (sale.cartItems.map (fun it => insertSaleItemSingular (nextSaleId db) it)))
  refine ⟨?_, ?_, ?_, added, ?_, i6, i7⟩
  · rw [d1, i1]
    rfl
  · rw [d3, i2]
    rfl
  · rw [d5, i3]
    rfl
  · rw [d2, i5]
    rfl

/-- The online-order endpoint can never persist anything: once past the
role gate, `conn.begin()` raises before the first INSERT, the handler's
`rollback()` finds a fresh untouched autocommit connection, and the
caller always receives the 500 with the store exactly as before —
regardless of the request body and of any injected statement failure
(the statements are never reached). -/
theorem save_online_order_always_fails (db : Database) (user : User)
    (o : OnlineOrderRequest) (now : Nat) (failAt : Option Nat)
    (h : roleAllowed user saveOnlineOrderAllowedRoles = true) :
    save_online_order db user o now failAt =
      (.error (.internalError "An error occurred while saving the online order"), db) := by
  unfold save_online_order
  rw [h]
  rfl

/-! ## Demo runs -/

/-- The scenario evaluation of the calculator: subtotal 250, clamped
discount 250, raw attributions 125 and 300. -/
theorem scenario_calc_eval :
    calculate_totals_and_discounts scenarioDiscounts scenarioSale =
      (250, 250, [⟨1, 125⟩, ⟨2, 300⟩]) := by
  norm_num +decide [calculate_totals_and_discounts, cartSubtotal, itemAddonsPrice,
    addonPrice, ADDON_PRICES, fetchValidDiscounts, applyDiscounts,
    discountContribution, scenarioDiscounts, scenarioSale, List.lookup]

/-- An empty store whose `discounts` table holds the two scenario
discounts. -/
def demoDb : Database :=
  { sales := [], saleItem := [], saleItems := [], saleDiscounts := [],
    discounts := scenarioDiscounts }

/-- A staff principal. -/
def demoStaff : User := { userRole := some "staff", username := some "alice" }

/-- C2, counterexample: running `create_sale` on the scenario cart with
both scenario discounts persists 250 as the header's
TotalDiscountAmount while the `SaleDiscounts` rows of the very same
sale sum to 425: the persisted header amount does not equal the sum of
the sale's application amounts. -/
theorem claim_C2_counterexample :
    ((create_sale demoDb demoStaff scenarioSale "processing" 5 none
        (.ok ()) (.ok ())).db.sales.map SaleRow.totalDiscountAmount).sum ≠
    ((create_sale demoDb demoStaff scenarioSale "processing" 5 none
        (.ok ()) (.ok ())).db.saleDiscounts.map SaleDiscountRow.appliedAmount).sum := by
  rw [create_sale_ok demoDb demoStaff scenarioSale "processing" 5 (.ok ()) (.ok ())
    (by decide)]
  obtain ⟨h1, _h2, h3, _⟩ := csWrites_db demoDb demoStaff scenarioSale "processing" 5
  simp only [h1, h3]
  have hd : demoDb.discounts = scenarioDiscounts := rfl
  rw [hd, scenario_calc_eval]
  norm_num [demoDb, csHeaderRow, scenario_calc_eval]

/-- C2, amended: on the create-sale path the persisted
TotalDiscountAmount is the calculator's clamped final discount
`min (sum of the application amounts, subtotal)` — equal to the sum of
the sale's SaleDiscountApplication amounts whenever that raw sum does
not exceed the pre-discount subtotal (in particular always when no
discounts were requested, both being zero), never exceeding the
subtotal when any discounts were requested.  The online-order path
never creates a sale at all: `conn.begin()` raises `AttributeError`
before the first INSERT, so every request past the role gate returns
the 500 with the store unchanged — in particular no
SaleDiscountApplication row and no header row is ever written by it,
and the claimed equality is vacuous for that path. -/
theorem claim_C2_header_vs_applications :
    (∀ (db : Database) (user : User) (sale : SaleReq) (ds : String) (now : Nat)
        (ing mat : Except String Unit),
      roleAllowed user createSaleAllowedRoles = true →
      (create_sale db user sale ds now none ing mat).db.sales =
          db.sales ++ [csHeaderRow db user sale ds now] ∧
      (create_sale db user sale ds now none ing mat).db.saleDiscounts =
          db.saleDiscounts ++
            (calculate_totals_and_discounts db.discounts sale).2.2.map
              (fun a => { saleID := nextSaleId db, discountID := a.id,
                          appliedAmount := a.amount }) ∧
      ((((create_sale db user sale ds now none ing mat).db.saleDiscounts.drop
            db.saleDiscounts.length).map SaleDiscountRow.appliedAmount).sum =
          (((calculate_totals_and_discounts db.discounts sale).2.2).map
            Attribution.amount).sum) ∧
      (csHeaderRow db user sale ds now).totalDiscountAmount =
          (calculate_totals_and_discounts db.discounts sale).2.1 ∧
      (sale.appliedDiscounts ≠ [] →
        (calculate_totals_and_discounts db.discounts sale).2.1 =
          min ((((calculate_totals_and_discounts db.discounts sale).2.2).map
                 Attribution.amount).sum)
              (calculate_totals_and_discounts db.discounts sale).1 ∧
        (calculate_totals_and_discounts db.discounts sale).2.1 ≤
          (calculate_totals_and_discounts db.discounts sale).1) ∧
      (sale.appliedDiscounts = [] →
        (calculate_totals_and_discounts db.discounts sale).2.1 = 0 ∧
        (calculate_totals_and_discounts db.discounts sale).2.2 = [])) ∧
    (∀ (db : Database) (user : User) (o : OnlineOrderRequest) (now : Nat)
        (failAt : Option Nat),
      roleAllowed user saveOnlineOrderAllowedRoles = true →
      save_online_order db user o now failAt =
        (.error (.internalError "An error occurred while saving the online order"),
         db) ∧
      (save_online_order db user o now failAt).2.saleDiscounts = db.saleDiscounts ∧
      (save_online_order db user o now failAt).2.sales = db.sales) := by
  constructor
  · intro db user sale ds now ing mat h
    rw [create_sale_ok db user sale ds now ing mat h]
    obtain ⟨h1, _h2, h3, _⟩ := csWrites_db db user sale ds now
    refine ⟨h1, h3, ?_, rfl, ?_, fun he => calc_empty db.discounts sale he⟩
    · rw [h3, List.drop_left, List.map_map]
      rfl
    · intro hne
      refine ⟨calc_details_sum db.discounts sale hne, ?_⟩
      rw [(calc_discount_and_details db.discounts sale hne).1, calc_subtotal_eq]
      exact min_le_right _ _
  · intro db user o now failAt h
    have hf := save_online_order_always_fails db user o now failAt h
    exact ⟨hf, by rw [hf], by rw [hf]⟩

/-- C2, witness: the amended theorem applied to the scenario run. -/
theorem claim_C2_witness :
    (create_sale demoDb demoStaff scenarioSale "processing" 5 none
        (.ok ()) (.ok ())).db.sales =
      demoDb.sales ++ [csHeaderRow demoDb demoStaff scenarioSale "processing" 5] :=
  (claim_C2_header_vs_applications.1 demoDb demoStaff scenarioSale "processing" 5
    (.ok ()) (.ok ()) (by decide)).1

/-- C9: once the write transaction has committed (no write statement
failed), the outcomes of the two downstream inventory notifications
change neither the HTTP response nor the database: the caller still
receives the successful response carrying the committed sale's
identifier and totals, and a failing call is only recorded in the log
as a sync-failure entry. -/
theorem claim_C9_notification_failures_swallowed
    (db : Database) (user : User) (sale : SaleReq) (ds : String) (now : Nat)
    (ing mat ing2 mat2 : Except String Unit)
    (h : roleAllowed user createSaleAllowedRoles = true) :
    (create_sale db user sale ds now none ing mat).response =
      (create_sale db user sale ds now none ing2 mat2).response ∧
    (create_sale db user sale ds now none ing mat).db =
      (create_sale db user sale ds now none ing2 mat2).db ∧
    (create_sale db user sale ds now none ing mat).response = .ok
      { saleId := nextSaleId db,
        subtotal := (calculate_totals_and_discounts db.discounts sale).1,
        discountAmount := (calculate_totals_and_discounts db.discounts sale).2.1,
        finalTotal := (calculate_totals_and_discounts db.discounts sale).1 -
          (calculate_totals_and_discounts db.discounts sale).2.1 } ∧
    (∀ e, ing = .error e →
      (create_sale db user sale ds now none ing mat).ingredientLog =
        some (.syncFailure e)) ∧
    (∀ e, mat = .error e →
      (create_sale db user sale ds now none ing mat).materialLog =
        some (.syncFailure e)) := by
  rw [create_sale_ok db user sale ds now ing mat h,
    create_sale_ok db user sale ds now ing2 mat2 h]
  refine ⟨rfl, rfl, rfl, ?_, ?_⟩
  · intro e he
    rw [he]
    rfl
  · intro e he
    rw [he]
    rfl

/-- C9, witness: the independence theorem applied to the scenario run
with a failing ingredient notification and a failing material
notification against a run where both succeed. -/
theorem claim_C9_witness :
    (create_sale demoDb demoStaff scenarioSale "processing" 5 none
        (.error "ingredient service down") (.error "material service down")).response =
      (create_sale demoDb demoStaff scenarioSale "processing" 5 none
        (.ok ()) (.ok ())).response :=
  (claim_C9_notification_failures_swallowed demoDb demoStaff scenarioSale "processing" 5
    (.error "ingredient service down") (.error "material service down")
    (.ok ()) (.ok ()) (by decide)).1

/-- C10: `save_online_order` permits exactly the roles admin, staff and
cashier: a manager — although on the allow-list of every other
operation of the service — receives Forbidden with the store untouched
(and the outcome does not depend on the store at all, so no database
access was needed), as does any role outside the set; a permitted role
is never answered with Forbidden (in fact it receives the downstream
500 raised by the nonexistent `begin()`, never Forbidden). -/
theorem claim_C10_online_order_role_gate :
    (∀ (db : Database) (user : User) (o : OnlineOrderRequest) (now : Nat)
        (failAt : Option Nat),
      user.userRole = some "manager" →
      save_online_order db user o now failAt =
        (.error (.forbidden "You do not have permission to create orders."), db)) ∧
    (∀ (db : Database) (user : User) (o : OnlineOrderRequest) (now : Nat)
        (failAt : Option Nat),
      roleAllowed user saveOnlineOrderAllowedRoles = false →
      save_online_order db user o now failAt =
        (.error (.forbidden "You do not have permission to create orders."), db)) ∧
    (∀ (db db2 : Database) (user : User) (o : OnlineOrderRequest) (now : Nat)
        (failAt : Option Nat),
      roleAllowed user saveOnlineOrderAllowedRoles = false →
      (save_online_order db user o now failAt).1 =
        (save_online_order db2 user o now failAt).1) ∧
    (∀ (db : Database) (user : User) (o : OnlineOrderRequest) (now : Nat)
        (failAt : Option Nat) (r : String),
      user.userRole = some r → r ∈ saveOnlineOrderAllowedRoles →
      ∀ d, (save_online_order db user o now failAt).1 ≠ .error (.forbidden d)) ∧
    ("manager" ∈ createSaleAllowedRoles ∧
     "manager" ∈ processingQueryAllowedRoles ∧
     "manager" ∈ updateStatusAllowedRoles ∧
     "manager" ∈ allOrdersAllowedRoles ∧
     "manager" ∉ saveOnlineOrderAllowedRoles) := by
  have hforb : ∀ (db : Database) (user : User) (o : OnlineOrderRequest) (now : Nat)
      (failAt : Option Nat),
      roleAllowed user saveOnlineOrderAllowedRoles = false →
      save_online_order db user o now failAt =
        (.error (.forbidden "You do not have permission to create orders."), db) := by
    intro db user o now failAt h
    unfold save_online_order
    rw [h]
    rfl
  refine ⟨?_, hforb, ?_, ?_, by decide⟩
  · intro db user o now failAt h
    apply hforb
    unfold roleAllowed
    rw [h]
    rfl
  · intro db db2 user o now failAt h
    rw [hforb db user o now failAt h, hforb db2 user o now failAt h]
  · intro db user o now failAt r hr hmem d
    have hra : roleAllowed user saveOnlineOrderAllowedRoles = true := by
      unfold roleAllowed
      rw [hr]
      simpa using hmem
    rw [save_online_order_always_fails db user o now failAt hra]
    simp

/-- C10, witness: a manager is rejected by the online-order endpoint on
the demo store. -/
theorem claim_C10_witness :
    save_online_order demoDb { userRole := some "manager", username := some "mia" }
        { online_order_id := 9, customer_name := "Cara", order_type := "Delivery",
          payment_method := "gcash", subtotal := 100, total_amount := 90,
          status := "processing", items := [] } 5 none =
      (.error (.forbidden "You do not have permission to create orders."), demoDb) :=
  claim_C10_online_order_role_gate.1 demoDb
    { userRole := some "manager", username := some "mia" }
    { online_order_id := 9, customer_name := "Cara", order_type := "Delivery",
      payment_method := "gcash", subtotal := 100, total_amount := 90,
      status := "processing", items := [] } 5 none rfl

/-- A two-item cart with no requested discounts, used to exhibit the
partial-write behaviour of `create_sale`. -/
def twoItemSale : SaleReq :=
  { cartItems :=
      [ { name := "Latte", quantity := 2, price := 100, category := "drink",
          addons := [("espressoShots", 1)] },
        { name := "Cookie", quantity := 1, price := 50, category := "food",
          addons := [] } ],
    orderType := "dine-in", paymentMethod := "cash",
    appliedDiscounts := [], gcashReference := none }

/-- C1: a database exception on the second line-item INSERT (write
statement index 2: after the header insert and the first item insert)
leaves the caller with the opaque 500 error, yet the Sales header and
the first SaleItem row remain durably visible — the connection is
opened with `autocommit=True` and `create_sale` never begins a
transaction, so the except-handler `rollback()` undoes nothing and
partial writes survive, contradicting the claimed full rollback. -/
theorem claim_C1_partial_writes_visible :
    (create_sale demoDb demoStaff twoItemSale "processing" 5 (some 2)
        (.ok ()) (.ok ())).response = .error (.internalError opaqueSaleError) ∧
    ((create_sale demoDb demoStaff twoItemSale "processing" 5 (some 2)
        (.ok ()) (.ok ())).db.sales.map SaleRow.cashierName) = ["alice"] ∧
    ((create_sale demoDb demoStaff twoItemSale "processing" 5 (some 2)
        (.ok ()) (.ok ())).db.saleItem.map SaleItemRow.itemName) = ["Latte"] ∧
    (create_sale demoDb demoStaff twoItemSale "processing" 5 (some 2)
        (.ok ()) (.ok ())).db ≠ demoDb := by
  refine ⟨?_, ?_, ?_, ?_⟩ <;>
    norm_num +decide [create_sale, roleAllowed, createSaleAllowedRoles,
      calculate_totals_and_discounts, cartSubtotal, itemAddonsPrice, addonPrice,
      ADDON_PRICES, runWrites, execWrite, get_db_connection, connRollback, connCommit,
      insertSaleHeader, insertSaleItemSingular, nextSaleId, nextSaleItemId,
      demoDb, demoStaff, twoItemSale, List.lookup, Database.mk.injEq]

/-! ## Aggregation lemmas -/

/-- The line item a join row contributes, if any: the item columns must
be present (not the NULL of an unmatched LEFT JOIN header) and the
`SaleItemID` must be truthy (nonzero). -/
def liveItem (r : JoinRow) : Option SaleItemRow :=
  match r.item with
  | some i => if i.saleItemID ≠ 0 then some i else none
  | none => none

/-- The join rows belonging to one SaleID. -/
def rowsFor (k : Int) (rows : List JoinRow) : List JoinRow :=
  rows.filter (fun r => r.sale.saleID == k)

/-- The line items the aggregation folds into the entry of one SaleID. -/
def liveItemsFor (k : Int) (rows : List JoinRow) : List SaleItemRow :=
  (rowsFor k rows).filterMap liveItem

/-- Folding a list of line items into an entry. -/
def extendAll (e : AggEntry) (l : List SaleItemRow) : AggEntry :=
  l.foldl addItemRow e

theorem extendAll_nil (e : AggEntry) : extendAll e [] = e := rfl

theorem extendAll_snoc (e : AggEntry) (l : List SaleItemRow) (i : SaleItemRow) :
    extendAll e (l ++ [i]) = addItemRow (extendAll e l) i := by
  simp [extendAll, List.foldl_append]

/-- The running statistics accumulated by `extendAll`, and the header
fields it leaves untouched. -/
theorem extendAll_stats (l : List SaleItemRow) :
    ∀ e : AggEntry,
      (extendAll e l).subtotal =
        e.subtotal + (l.map (fun i => i.unitPrice * (i.quantity : Rat))).sum ∧
      (extendAll e l).items = e.items + (l.map SaleItemRow.quantity).sum ∧
      (extendAll e l).orderItems = e.orderItems ++ l.map itemViewOf ∧
      (extendAll e l).totalDiscount = e.totalDiscount ∧
      (extendAll e l).id = e.id ∧
      (extendAll e l).date = e.date ∧
      (extendAll e l).status = e.status ∧
      (extendAll e l).orderType = e.orderType ∧
      (extendAll e l).paymentMethod = e.paymentMethod ∧
      (extendAll e l).cashierName = e.cashierName ∧
      (extendAll e l).gcashReferenceNumber = e.gcashReferenceNumber := by
  induction l with
  | nil => intro e; simp [extendAll_nil]
  | cons i l ih =>
    intro e
    have hc : extendAll e (i :: l) = extendAll (addItemRow e i) l := rfl
    obtain ⟨s1, s2, s3, s4, s5, s6, s7, s8, s9, s10, s11⟩ := ih (addItemRow e i)
    rw [hc]
    exact ⟨by rw [s1]; simp [addItemRow, add_assoc],
           by rw [s2]; simp [addItemRow, add_assoc],
           by rw [s3]; simp [addItemRow],
           by rw [s4]; rfl, by rw [s5]; rfl, by rw [s6]; rfl, by rw [s7]; rfl,
           by rw [s8]; rfl, by rw [s9]; rfl, by rw [s10]; rfl, by rw [s11]; rfl⟩

theorem lookup_append_none {k : Int} {l1 l2 : List (Int × AggEntry)}
    (h : List.lookup k l1 = none) :
    List.lookup k (l1 ++ l2) = List.lookup k l2 := by
  induction l1 with
  | nil => rfl
  | cons p t ih =>
    obtain ⟨a, b⟩ := p
    rw [List.cons_append]
    rw [List.lookup_cons] at h ⊢
    cases hk : (k == a) with
    | true => rw [hk] at h; exact Option.noConfusion h
    | false => rw [hk] at h; exact ih h

theorem lookup_append_some {k : Int} {l1 l2 : List (Int × AggEntry)} {e : AggEntry}
    (h : List.lookup k l1 = some e) :
    List.lookup k (l1 ++ l2) = some e := by
  induction l1 with
  | nil => exact Option.noConfusion h
  | cons p t ih =>
    obtain ⟨a, b⟩ := p
    rw [List.cons_append]
    rw [List.lookup_cons] at h ⊢
    cases hk : (k == a) with
    | true => rw [hk] at h; exact h
    | false => rw [hk] at h; exact ih h

theorem lookup_update_self (k : Int) (f : AggEntry → AggEntry) (l : List (Int × AggEntry)) :
    List.lookup k (l.map (fun p => if p.1 = k then (p.1, f p.2) else p)) =
      (List.lookup k l).map f := by
  induction l with
  | nil => rfl
  | cons p t ih =>
    obtain ⟨a, b⟩ := p
    by_cases hp : a = k
    · simp only [List.map_cons, if_pos hp, List.lookup_cons,
        show (k == a) = true from beq_iff_eq.mpr hp.symm]
      rfl
    · simp only [List.map_cons, if_neg hp, List.lookup_cons,
        show (k == a) = false from beq_eq_false_iff_ne.mpr (fun hh => hp hh.symm)]
      exact ih

theorem lookup_update_other {k j : Int} (hkj : k ≠ j) (f : AggEntry → AggEntry)
    (l : List (Int × AggEntry)) :
    List.lookup k (l.map (fun p => if p.1 = j then (p.1, f p.2) else p)) =
      List.lookup k l := by
  induction l with
  | nil => rfl
  | cons p t ih =>
    obtain ⟨a, b⟩ := p
    by_cases hp : a = j
    · simp only [List.map_cons, if_pos hp, List.lookup_cons]
      have hk : (k == a) = false := beq_eq_false_iff_ne.mpr (fun hh => hkj (hh.trans hp))
      rw [hk]
      exact ih
    · simp only [List.map_cons, if_neg hp, List.lookup_cons]
      cases hk : (k == a) with
      | true => rfl
      | false => exact ih

theorem aggStep_lookup_other (g : Bool) (acc : List (Int × AggEntry)) (r : JoinRow)
    {k : Int} (h : r.sale.saleID ≠ k) :
    List.lookup k (aggStep g acc r) = List.lookup k acc := by
  unfold aggStep
  have hacc1 : ∀ acc1 : List (Int × AggEntry), List.lookup k acc1 = List.lookup k acc →
      List.lookup k
        (match r.item with
          | some i =>
            if i.saleItemID ≠ 0 then
              acc1.map (fun p => if p.1 = r.sale.saleID then (p.1, addItemRow p.2 i) else p)
            else acc1
          | none => acc1) = List.lookup k acc := by
    intro acc1 h1
    cases r.item with
    | none => exact h1
    | some i =>
      dsimp only
      by_cases hz : i.saleItemID ≠ 0
      · rw [if_pos hz]
        exact (lookup_update_other (fun hh => h hh.symm)
          (fun e => addItemRow e i) acc1).trans h1
      · rw [if_neg hz]
        exact h1
  by_cases hs : (List.lookup r.sale.saleID acc).isSome
  · rw [if_pos hs]
    exact hacc1 acc rfl
  · rw [if_neg hs]
    refine hacc1 _ ?_
    cases hacc : List.lookup k acc with
    | some e => rw [lookup_append_some hacc]
    | none =>
      rw [lookup_append_none hacc, List.lookup_cons,
        show (k == r.sale.saleID) = false from
          beq_eq_false_iff_ne.mpr (fun hh => h hh.symm)]
      rfl

theorem aggStep_lookup_self (g : Bool) (acc : List (Int × AggEntry)) (r : JoinRow) :
    List.lookup r.sale.saleID (aggStep g acc r) =
      some (
        match liveItem r with
        | some i =>
          addItemRow ((List.lookup r.sale.saleID acc).getD (initEntry g r.sale)) i
        | none => (List.lookup r.sale.saleID acc).getD (initEntry g r.sale)) := by
  unfold aggStep
  have hacc1 : ∀ acc1 : List (Int × AggEntry),
      List.lookup r.sale.saleID acc1 =
        some ((List.lookup r.sale.saleID acc).getD (initEntry g r.sale)) →
      List.lookup r.sale.saleID
        (match r.item with
          | some i =>
            if i.saleItemID ≠ 0 then
              acc1.map (fun p => if p.1 = r.sale.saleID then (p.1, addItemRow p.2 i) else p)
            else acc1
          | none => acc1) =
        some (
          match liveItem r with
          | some i =>
            addItemRow ((List.lookup r.sale.saleID acc).getD (initEntry g r.sale)) i
          | none => (List.lookup r.sale.saleID acc).getD (initEntry g r.sale)) := by
    intro acc1 h1
    cases hri : r.item with
    | none =>
      rw [show liveItem r = none from by unfold liveItem; rw [hri]]
      exact h1
    | some i =>
      dsimp only
      by_cases hz : i.saleItemID ≠ 0
      · rw [if_pos hz,
          show liveItem r = some i from by unfold liveItem; rw [hri]; exact if_pos hz]
        exact (lookup_update_self r.sale.saleID (fun e => addItemRow e i) acc1).trans
          (by rw [h1]; rfl)
      · rw [if_neg hz,
          show liveItem r = none from by unfold liveItem; rw [hri]; exact if_neg hz]
        exact h1
  by_cases hs : (List.lookup r.sale.saleID acc).isSome
  · rw [if_pos hs]
    obtain ⟨e, he⟩ := Option.isSome_iff_exists.mp hs
    exact hacc1 acc (by rw [he]; rfl)
  · rw [if_neg hs]
    refine hacc1 _ ?_
    have hnone : List.lookup r.sale.saleID acc = none :=
      Option.not_isSome_iff_eq_none.mp hs
    rw [lookup_append_none hnone, hnone, List.lookup,
      show (r.sale.saleID == r.sale.saleID) = true from beq_self_eq_true _]
    rfl

theorem rowsFor_append (k : Int) (rows1 rows2 : List JoinRow) :
    rowsFor k (rows1 ++ rows2) = rowsFor k rows1 ++ rowsFor k rows2 := by
  simp [rowsFor, List.filter_append]

theorem rowsFor_singleton_self (k : Int) (r : JoinRow) (h : r.sale.saleID = k) :
    rowsFor k [r] = [r] := by
  simp [rowsFor, List.filter_cons, h]

theorem rowsFor_singleton_other (k : Int) (r : JoinRow) (h : r.sale.saleID ≠ k) :
    rowsFor k [r] = [] := by
  simp [rowsFor, List.filter_cons, h]

theorem liveItemsFor_append (k : Int) (rows1 rows2 : List JoinRow) :
    liveItemsFor k (rows1 ++ rows2) = liveItemsFor k rows1 ++ liveItemsFor k rows2 := by
  simp [liveItemsFor, rowsFor_append, List.filterMap_append]

theorem liveItemsFor_of_rowsFor_nil {k : Int} {rows : List JoinRow}
    (h : rowsFor k rows = []) : liveItemsFor k rows = [] := by
  unfold liveItemsFor
  rw [h]
  rfl

theorem liveItemsFor_singleton_self (k : Int) (r : JoinRow) (h : r.sale.saleID = k) :
    liveItemsFor k [r] = (liveItem r).toList := by
  unfold liveItemsFor
  rw [rowsFor_singleton_self k r h]
  cases hl : liveItem r <;> simp [List.filterMap, hl]

/-- The central aggregation invariant: after folding any flat row set,
the entry recorded for a SaleID is the entry initialized from the first
row carrying that SaleID, extended by exactly the truthy line items of
all rows carrying that SaleID, in row order. -/
theorem agg_lookup (g : Bool) (rows : List JoinRow) (k : Int) :
    List.lookup k (rows.foldl (aggStep g) []) =
      match rowsFor k rows with
      | [] => none
      | r :: _ => some (extendAll (initEntry g r.sale) (liveItemsFor k rows)) := by
  induction rows using List.reverseRecOn with
  | nil => rfl
  | append_singleton rs r ih =>
    rw [List.foldl_append, List.foldl_cons, List.foldl_nil]
    by_cases hk : r.sale.saleID = k
    · subst hk
      rw [aggStep_lookup_self g (rs.foldl (aggStep g) []) r, ih,
        rowsFor_append, rowsFor_singleton_self r.sale.saleID r rfl,
        liveItemsFor_append, liveItemsFor_singleton_self r.sale.saleID r rfl]
      cases h0 : rowsFor r.sale.saleID rs with
      | nil =>
        rw [liveItemsFor_of_rowsFor_nil h0]
        cases hl : liveItem r with
        | none => rfl
        | some i => rfl
      | cons r0 rest =>
        cases hl : liveItem r with
        | none =>
          simp only [Option.toList, Option.getD, List.cons_append, List.append_nil]
        | some i =>
          simp only [Option.toList, Option.getD, List.cons_append, extendAll_snoc]
    · rw [aggStep_lookup_other g (rs.foldl (aggStep g) []) r hk, ih,
        rowsFor_append, rowsFor_singleton_other k r hk,
        liveItemsFor_append, List.append_nil,
        liveItemsFor_of_rowsFor_nil (rowsFor_singleton_other k r hk),
        List.append_nil]

theorem lookup_eq_none_iff {k : Int} {l : List (Int × AggEntry)} :
    List.lookup k l = none ↔ k ∉ l.map Prod.fst := by
  induction l with
  | nil => simp
  | cons p t ih =>
    obtain ⟨a, b⟩ := p
    rw [List.lookup_cons]
    cases hk : (k == a) with
    | true =>
      have : k = a := beq_iff_eq.mp hk
      simp [this]
    | false =>
      have : ¬ k = a := beq_eq_false_iff_ne.mp hk
      simp [this, ih]

theorem mem_lookup_of_nodup {k : Int} {e : AggEntry} {l : List (Int × AggEntry)}
    (hn : (l.map Prod.fst).Nodup) (hm : (k, e) ∈ l) :
    List.lookup k l = some e := by
  induction l with
  | nil => cases hm
  | cons p t ih =>
    obtain ⟨a, b⟩ := p
    rw [List.map_cons, List.nodup_cons] at hn
    rw [List.lookup_cons]
    rcases List.mem_cons.mp hm with h | h
    · obtain ⟨hk, he⟩ := Prod.mk.injEq .. ▸ h
      rw [show (k == a) = true from beq_iff_eq.mpr hk]
      rw [he]
    · cases hk : (k == a) with
      | true =>
        exfalso
        have hka : k = a := beq_iff_eq.mp hk
        have hkm : (k, e).1 ∈ t.map Prod.fst := List.mem_map_of_mem Prod.fst h
        rw [show (k, e).1 = a from hka] at hkm
        exact hn.1 hkm
      | false => exact ih hn.2 h

theorem keys_update (j : Int) (f : AggEntry → AggEntry) (l : List (Int × AggEntry)) :
    (l.map (fun p => if p.1 = j then (p.1, f p.2) else p)).map Prod.fst =
      l.map Prod.fst := by
  rw [List.map_map]
  apply List.map_congr_left
  intro p _
  by_cases hp : p.1 = j
  · simp [hp]
  · simp [hp]

theorem aggStep_keys (g : Bool) (acc : List (Int × AggEntry)) (r : JoinRow) :
    (aggStep g acc r).map Prod.fst = acc.map Prod.fst ∨
    ((aggStep g acc r).map Prod.fst = acc.map Prod.fst ++ [r.sale.saleID] ∧
      List.lookup r.sale.saleID acc = none) := by
  unfold aggStep
  by_cases hs : (List.lookup r.sale.saleID acc).isSome
  · rw [if_pos hs]
    left
    cases r.item with
    | none => rfl
    | some i =>
      dsimp only
      by_cases hz : i.saleItemID ≠ 0
      · rw [if_pos hz]
        exact keys_update r.sale.saleID (fun e => addItemRow e i) acc
      · rw [if_neg hz]
  · rw [if_neg hs]
    right
    have hnone : List.lookup r.sale.saleID acc = none :=
      Option.not_isSome_iff_eq_none.mp hs
    refine ⟨?_, hnone⟩
    cases r.item with
    | none => simp
    | some i =>
      dsimp only
      by_cases hz : i.saleItemID ≠ 0
      · rw [if_pos hz, keys_update r.sale.saleID (fun e => addItemRow e i)]
        simp
      · rw [if_neg hz]
        simp

theorem aggStep_keys_nodup (g : Bool) (acc : List (Int × AggEntry)) (r : JoinRow)
    (hn : (acc.map Prod.fst).Nodup) : ((aggStep g acc r).map Prod.fst).Nodup := by
  rcases aggStep_keys g acc r with h | ⟨h, hnone⟩
  · rw [h]
    exact hn
  · rw [h]
    rw [List.nodup_append]
    exact ⟨hn, List.nodup_singleton _,
      by simpa using fun hk => (lookup_eq_none_iff.mp hnone) hk⟩

theorem agg_foldl_keys_nodup (g : Bool) (rows : List JoinRow) :
    ((rows.foldl (aggStep g) []).map Prod.fst).Nodup := by
  suffices h : ∀ acc : List (Int × AggEntry), (acc.map Prod.fst).Nodup →
      ((rows.foldl (aggStep g) acc).map Prod.fst).Nodup by
    exact h [] (by simp)
  induction rows with
  | nil => intro acc hn; exact hn
  | cons r rs ih =>
    intro acc hn
    exact ih (aggStep g acc r) (aggStep_keys_nodup g acc r hn)

/-- Characterization of every emitted view: it is the finalization of
the entry of some SaleID present in the rows, namely the
initialization from the first row of that SaleID extended by all its
truthy line items. -/
theorem aggregate_mem_char (g : Bool) (rows : List JoinRow) (v : OrderView)
    (hv : v ∈ aggregate g rows) :
    ∃ (k : Int) (r : JoinRow) (rest : List JoinRow),
      rowsFor k rows = r :: rest ∧
      v = finalizeEntry (extendAll (initEntry g r.sale) (liveItemsFor k rows)) := by
  unfold aggregate at hv
  obtain ⟨⟨k, e⟩, hmem, hfin⟩ := List.mem_map.mp hv
  have hlook : List.lookup k (rows.foldl (aggStep g) []) = some e :=
    mem_lookup_of_nodup (agg_foldl_keys_nodup g rows) hmem
  rw [agg_lookup g rows k] at hlook
  cases h0 : rowsFor k rows with
  | nil => rw [h0] at hlook; cases hlook
  | cons r rest =>
    rw [h0] at hlook
    refine ⟨k, r, rest, h0, ?_⟩
    have he : extendAll (initEntry g r.sale) (liveItemsFor k rows) = e :=
      Option.some.inj hlook
    rw [he, hfin]

/-- Every statistic of an emitted view, relative to some SaleID present
in the rows: the view carries the first row's header fields, its item
count and running subtotal sum over the truthy line items of that
SaleID, and its total is that subtotal minus the stored header
discount. -/
theorem aggregate_view_stats (g : Bool) (rows : List JoinRow) (v : OrderView)
    (hv : v ∈ aggregate g rows) :
    ∃ (k : Int) (r : JoinRow) (rest : List JoinRow),
      rowsFor k rows = r :: rest ∧
      r.sale.saleID = k ∧
      v.id = "SO-" ++ toString r.sale.saleID ∧
      v.status = r.sale.status ∧
      v.cashierName = r.sale.cashierName ∧
      v.total =
        ((liveItemsFor k rows).map (fun i => i.unitPrice * (i.quantity : Rat))).sum -
          r.sale.totalDiscountAmount ∧
      v.items = ((liveItemsFor k rows).map SaleItemRow.quantity).sum ∧
      v.orderItems = (liveItemsFor k rows).map itemViewOf ∧
      (liveItemsFor k rows = [] →
        v.orderItems = [] ∧ v.items = 0 ∧ v.total = 0 - r.sale.totalDiscountAmount) := by
  obtain ⟨k, r, rest, h0, hveq⟩ := aggregate_mem_char g rows v hv
  obtain ⟨s1, s2, s3, s4, s5, s6, s7, s8, s9, s10, s11⟩ :=
    extendAll_stats (liveItemsFor k rows) (initEntry g r.sale)
  have hrk : r.sale.saleID = k := by
    have hr : r ∈ rowsFor k rows := by rw [h0]; exact List.mem_cons_self r rest
    have := List.of_mem_filter hr
    exact beq_iff_eq.mp (by simpa using this)
  have htot : v.total =
      ((liveItemsFor k rows).map (fun i => i.unitPrice * (i.quantity : Rat))).sum -
        r.sale.totalDiscountAmount := by
    rw [hveq]
    show (extendAll (initEntry g r.sale) (liveItemsFor k rows)).subtotal -
        (extendAll (initEntry g r.sale) (liveItemsFor k rows)).totalDiscount = _
    rw [s1, s4]
    simp [initEntry]
  have hitems : v.items = ((liveItemsFor k rows).map SaleItemRow.quantity).sum := by
    rw [hveq]
    show (extendAll (initEntry g r.sale) (liveItemsFor k rows)).items = _
    rw [s2]
    simp [initEntry]
  have horder : v.orderItems = (liveItemsFor k rows).map itemViewOf := by
    rw [hveq]
    show (extendAll (initEntry g r.sale) (liveItemsFor k rows)).orderItems = _
    rw [s3]
    simp [initEntry]
  refine ⟨k, r, rest, h0, hrk, ?_, ?_, ?_, htot, hitems, horder, ?_⟩
  · rw [hveq]
    show (extendAll (initEntry g r.sale) (liveItemsFor k rows)).id = _
    rw [s5]
    rfl
  · rw [hveq]
    show (extendAll (initEntry g r.sale) (liveItemsFor k rows)).status = _
    rw [s7]
    rfl
  · rw [hveq]
    show (extendAll (initEntry g r.sale) (liveItemsFor k rows)).cashierName = _
    rw [s10]
    rfl
  · intro hempty
    rw [hempty] at htot hitems horder
    exact ⟨by rw [horder]; rfl, by rw [hitems]; rfl,
      by rw [htot]; simp⟩

theorem get_processing_orders_ok (db : Database) (user : User) (cn : Option String)
    (h : roleAllowed user processingQueryAllowedRoles = true) :
    get_processing_orders db user cn =
      .ok (aggregate false (leftJoin (processingSelectedSales db user cn) db.saleItems)) := by
  unfold get_processing_orders
  rw [h]
  rfl

theorem get_all_orders_ok (db : Database) (user : User)
    (h : roleAllowed user allOrdersAllowedRoles = true) :
    get_all_orders db user =
      .ok (aggregate true (leftJoin (allOrdersSelectedSales db) db.saleItems)) := by
  unfold get_all_orders
  rw [h]
  rfl

theorem get_processing_orders_ok_inv {db : Database} {user : User} {cn : Option String}
    {views : List OrderView} (h : get_processing_orders db user cn = .ok views) :
    views = aggregate false (leftJoin (processingSelectedSales db user cn) db.saleItems) := by
  unfold get_processing_orders at h
  by_cases hr : roleAllowed user processingQueryAllowedRoles
  · rw [hr] at h
    simpa using (Except.ok.inj h).symm
  · rw [Bool.not_eq_true] at hr
    rw [hr] at h
    cases h

theorem get_all_orders_ok_inv {db : Database} {user : User}
    {views : List OrderView} (h : get_all_orders db user = .ok views) :
    views = aggregate true (leftJoin (allOrdersSelectedSales db) db.saleItems) := by
  unfold get_all_orders at h
  by_cases hr : roleAllowed user allOrdersAllowedRoles
  · rw [hr] at h
    simpa using (Except.ok.inj h).symm
  · rw [Bool.not_eq_true] at hr
    rw [hr] at h
    cases h

/-- C5: for every view emitted by either order-query endpoint, the total
equals the sum over the sale's truthy (non-NULL) line-item rows of unit
price times quantity minus the stored header discount (the stored
value, not a recomputed discount), the item count is the sum of the
quantities, and the item list is those rows' views; an order whose join
rows carry no line item falls out of the same formula with empty items,
item count 0 and total 0 minus the stored discount. -/
theorem claim_C5_read_total_formula :
    (∀ (db : Database) (user : User) (cn : Option String) (views : List OrderView)
        (v : OrderView),
      get_processing_orders db user cn = .ok views → v ∈ views →
      ∃ (k : Int) (r : JoinRow) (rest : List JoinRow),
        rowsFor k (leftJoin (processingSelectedSales db user cn) db.saleItems) =
            r :: rest ∧
        v.total =
          ((liveItemsFor k (leftJoin (processingSelectedSales db user cn)
              db.saleItems)).map (fun i => i.unitPrice * (i.quantity : Rat))).sum -
            r.sale.totalDiscountAmount ∧
        v.items =
          ((liveItemsFor k (leftJoin (processingSelectedSales db user cn)
              db.saleItems)).map SaleItemRow.quantity).sum ∧
        v.orderItems =
          (liveItemsFor k (leftJoin (processingSelectedSales db user cn)
              db.saleItems)).map itemViewOf ∧
        (liveItemsFor k (leftJoin (processingSelectedSales db user cn) db.saleItems) = [] →
          v.orderItems = [] ∧ v.items = 0 ∧
            v.total = 0 - r.sale.totalDiscountAmount)) ∧
    (∀ (db : Database) (user : User) (views : List OrderView) (v : OrderView),
      get_all_orders db user = .ok views → v ∈ views →
      ∃ (k : Int) (r : JoinRow) (rest : List JoinRow),
        rowsFor k (leftJoin (allOrdersSelectedSales db) db.saleItems) = r :: rest ∧
        v.total =
          ((liveItemsFor k (leftJoin (allOrdersSelectedSales db) db.saleItems)).map
            (fun i => i.unitPrice * (i.quantity : Rat))).sum -
            r.sale.totalDiscountAmount ∧
        v.items =
          ((liveItemsFor k (leftJoin (allOrdersSelectedSales db) db.saleItems)).map
            SaleItemRow.quantity).sum ∧
        v.orderItems =
          (liveItemsFor k (leftJoin (allOrdersSelectedSales db) db.saleItems)).map
            itemViewOf ∧
        (liveItemsFor k (leftJoin (allOrdersSelectedSales db) db.saleItems) = [] →
          v.orderItems = [] ∧ v.items = 0 ∧
            v.total = 0 - r.sale.totalDiscountAmount)) := by
  constructor
  · intro db user cn views v h hm
    rw [get_processing_orders_ok_inv h] at hm
    obtain ⟨k, r, rest, h0, _, _, _, _, htot, hitems, horder, hemp⟩ :=
      aggregate_view_stats false _ v hm
    exact ⟨k, r, rest, h0, htot, hitems, horder, hemp⟩
  · intro db user views v h hm
    rw [get_all_orders_ok_inv h] at hm
    obtain ⟨k, r, rest, h0, _, _, _, _, htot, hitems, horder, hemp⟩ :=
      aggregate_view_stats true _ v hm
    exact ⟨k, r, rest, h0, htot, hitems, horder, hemp⟩

/-- One completed sale header with no line items, discount 0. -/
def demoCompletedSale : SaleRow :=
  { saleID := 3, orderType := "dine-in", paymentMethod := "cash",
    cashierName := "alice", totalDiscountAmount := 0, gcashReference := none,
    status := "completed", createdAt := 10 }

/-- A store holding only `demoCompletedSale`. -/
def demoDb5 : Database :=
  { sales := [demoCompletedSale], saleItem := [], saleItems := [],
    saleDiscounts := [], discounts := [] }

/-- An admin principal. -/
def demoAdmin : User := { userRole := some "admin", username := some "boss" }

/-- C5, witness: the read formula applied to a store holding one
zero-item completed sale queried by an admin. -/
theorem claim_C5_witness :
    ∃ (k : Int) (r : JoinRow) (rest : List JoinRow),
      rowsFor k (leftJoin (processingSelectedSales demoDb5 demoAdmin none)
          demoDb5.saleItems) = r :: rest ∧
      (finalizeEntry (initEntry false demoCompletedSale)).total =
        ((liveItemsFor k (leftJoin (processingSelectedSales demoDb5 demoAdmin none)
            demoDb5.saleItems)).map (fun i => i.unitPrice * (i.quantity : Rat))).sum -
          r.sale.totalDiscountAmount ∧
      (finalizeEntry (initEntry false demoCompletedSale)).items =
        ((liveItemsFor k (leftJoin (processingSelectedSales demoDb5 demoAdmin none)
            demoDb5.saleItems)).map SaleItemRow.quantity).sum ∧
      (finalizeEntry (initEntry false demoCompletedSale)).orderItems =
        (liveItemsFor k (leftJoin (processingSelectedSales demoDb5 demoAdmin none)
            demoDb5.saleItems)).map itemViewOf ∧
      (liveItemsFor k (leftJoin (processingSelectedSales demoDb5 demoAdmin none)
          demoDb5.saleItems) = [] →
        (finalizeEntry (initEntry false demoCompletedSale)).orderItems = [] ∧
        (finalizeEntry (initEntry false demoCompletedSale)).items = 0 ∧
        (finalizeEntry (initEntry false demoCompletedSale)).total =
          0 - r.sale.totalDiscountAmount) :=
  claim_C5_read_total_formula.1 demoDb5 demoAdmin none
    (aggregate false (leftJoin (processingSelectedSales demoDb5 demoAdmin none)
      demoDb5.saleItems))
    (finalizeEntry (initEntry false demoCompletedSale))
    rfl
    (by rw [show aggregate false (leftJoin (processingSelectedSales demoDb5 demoAdmin none)
          demoDb5.saleItems) = [finalizeEntry (initEntry false demoCompletedSale)] from rfl]
        exact List.mem_singleton.mpr rfl)

/-! ## Join and sort lemmas for the query endpoints -/

theorem leftJoin_sale_mem {sales : List SaleRow} {items : List SaleItemRow}
    {r : JoinRow} (h : r ∈ leftJoin sales items) : r.sale ∈ sales := by
  unfold leftJoin at h
  obtain ⟨s, hs, hr⟩ := List.mem_flatMap.mp h
  cases hfl : items.filter (fun i => i.saleID == s.saleID) with
  | nil =>
    rw [hfl] at hr
    obtain h1 := List.mem_singleton.mp hr
    rw [h1]
    exact hs
  | cons i t =>
    rw [hfl] at hr
    obtain ⟨i2, _, hr2⟩ := List.mem_map.mp hr
    rw [← hr2]
    exact hs

theorem leftJoin_item_char {sales : List SaleRow} {items : List SaleItemRow}
    {r : JoinRow} (h : r ∈ leftJoin sales items) :
    r.item = none ∨ ∃ i, r.item = some i ∧ i ∈ items ∧ i.saleID = r.sale.saleID := by
  unfold leftJoin at h
  obtain ⟨s, _, hr⟩ := List.mem_flatMap.mp h
  cases hfl : items.filter (fun i => i.saleID == s.saleID) with
  | nil =>
    rw [hfl] at hr
    obtain h1 := List.mem_singleton.mp hr
    rw [h1]
    exact Or.inl rfl
  | cons i t =>
    rw [hfl] at hr
    obtain ⟨i2, hi2, hr2⟩ := List.mem_map.mp hr
    right
    refine ⟨i2, by rw [← hr2], ?_, ?_⟩
    · have : i2 ∈ items.filter (fun i => i.saleID == s.saleID) := by
        rw [hfl]
        exact hi2
      exact List.mem_of_mem_filter this
    · have : i2 ∈ items.filter (fun i => i.saleID == s.saleID) := by
        rw [hfl]
        exact hi2
      have hp := List.of_mem_filter this
      have hps : i2.saleID = s.saleID := beq_iff_eq.mp (by simpa using hp)
      rw [hps, ← hr2]

theorem leftJoin_none_mem {sales : List SaleRow} {items : List SaleItemRow}
    {s : SaleRow} (hs : s ∈ sales)
    (hno : items.filter (fun i => i.saleID == s.saleID) = []) :
    ({ sale := s, item := none } : JoinRow) ∈ leftJoin sales items := by
  unfold leftJoin
  refine List.mem_flatMap.mpr ⟨s, hs, ?_⟩
  rw [hno]
  exact List.mem_singleton.mpr rfl

theorem mem_insertionSort_iff {r : SaleRow → SaleRow → Prop} [DecidableRel r]
    {l : List SaleRow} {s : SaleRow} : s ∈ l.insertionSort r ↔ s ∈ l :=
  (List.perm_insertionSort r l).mem_iff

theorem rowsFor_sale_key {k : Int} {rows : List JoinRow} {r : JoinRow}
    (h : r ∈ rowsFor k rows) : r.sale.saleID = k ∧ r ∈ rows := by
  refine ⟨beq_iff_eq.mp (by simpa using List.of_mem_filter h), List.mem_of_mem_filter h⟩

theorem liveItemsFor_nil_of_no_items {k : Int} {sales : List SaleRow}
    {items : List SaleItemRow} (hno : ∀ i ∈ items, i.saleID ≠ k) :
    liveItemsFor k (leftJoin sales items) = [] := by
  rw [List.eq_nil_iff_forall_not_mem]
  intro x hx
  unfold liveItemsFor at hx
  obtain ⟨r, hr, hlx⟩ := List.mem_filterMap.mp hx
  obtain ⟨hk, hrows⟩ := rowsFor_sale_key hr
  rcases leftJoin_item_char hrows with hnone | ⟨i, hsome, hitems, hid⟩
  · unfold liveItem at hlx
    rw [hnone] at hlx
    cases hlx
  · unfold liveItem at hlx
    rw [hsome] at hlx
    dsimp only at hlx
    by_cases hz : i.saleItemID ≠ 0
    · rw [if_pos hz] at hlx
      obtain hxi := Option.some.inj hlx
      exact hno i hitems (by rw [hid, hk])
    · rw [if_neg hz] at hlx
      cases hlx

theorem lookup_some_mem {k : Int} {e : AggEntry} {l : List (Int × AggEntry)}
    (h : List.lookup k l = some e) : (k, e) ∈ l := by
  induction l with
  | nil => cases h
  | cons p t ih =>
    obtain ⟨a, b⟩ := p
    rw [List.lookup_cons] at h
    cases hk : (k == a) with
    | true =>
      rw [hk] at h
      obtain he := Option.some.inj h
      rw [show k = a from beq_iff_eq.mp hk, he]
      exact List.mem_cons_self _ _
    | false =>
      rw [hk] at h
      exact List.mem_cons_of_mem _ (ih h)

/-- Existence side of the aggregation: a SaleID present in the rows
yields exactly its finalized entry among the views. -/
theorem aggregate_mem_of_rowsFor (g : Bool) (rows : List JoinRow) (k : Int)
    (r : JoinRow) (rest : List JoinRow) (h0 : rowsFor k rows = r :: rest) :
    finalizeEntry (extendAll (initEntry g r.sale) (liveItemsFor k rows)) ∈
      aggregate g rows := by
  have hl : List.lookup k (rows.foldl (aggStep g) []) =
      some (extendAll (initEntry g r.sale) (liveItemsFor k rows)) := by
    rw [agg_lookup g rows k, h0]
  unfold aggregate
  exact List.mem_map.mpr ⟨(k, extendAll (initEntry g r.sale) (liveItemsFor k rows)),
    lookup_some_mem hl, rfl⟩

/-! ## Freshness of generated SaleIDs -/

theorem init_le_foldl_max (l : List SaleRow) :
    ∀ a : Int, a ≤ l.foldl (fun m s => max m s.saleID) a := by
  induction l with
  | nil => intro a; exact le_refl a
  | cons x t ih =>
    intro a
    exact le_trans (le_max_left a x.saleID) (ih (max a x.saleID))

theorem mem_le_foldl_max (l : List SaleRow) :
    ∀ (a : Int) (s : SaleRow), s ∈ l → s.saleID ≤ l.foldl (fun m s => max m s.saleID) a := by
  induction l with
  | nil => intro a s hs; cases hs
  | cons x t ih =>
    intro a s hs
    rcases List.mem_cons.mp hs with h | h
    · rw [h]
      exact le_trans (le_max_right a x.saleID) (init_le_foldl_max t (max a x.saleID))
    · exact ih (max a x.saleID) s h

theorem nextSaleId_gt (db : Database) : ∀ s ∈ db.sales, s.saleID < nextSaleId db := by
  intro s hs
  unfold nextSaleId
  exact Int.lt_add_one_iff.mpr (mem_le_foldl_max db.sales 0 s hs)

/-- A header present exactly once (by SaleID) in the selected rows, with
no matching line item in the joined table, aggregates to exactly the
finalized initial entry: empty item list, item count 0, running
subtotal 0. -/
theorem fresh_sale_empty_view (g : Bool) (selected : List SaleRow)
    (items : List SaleItemRow) (hdr : SaleRow) (hmem : hdr ∈ selected)
    (hkuni : ∀ s ∈ selected, s.saleID = hdr.saleID → s = hdr)
    (hno : ∀ i ∈ items, i.saleID ≠ hdr.saleID) :
    finalizeEntry (initEntry g hdr) ∈ aggregate g (leftJoin selected items) := by
  have hfl : items.filter (fun i => i.saleID == hdr.saleID) = [] := by
    rw [List.filter_eq_nil_iff]
    intro i hi
    simpa using hno i hi
  have hrow : ({ sale := hdr, item := none } : JoinRow) ∈ leftJoin selected items :=
    leftJoin_none_mem hmem hfl
  have hrowk : ({ sale := hdr, item := none } : JoinRow) ∈
      rowsFor hdr.saleID (leftJoin selected items) := by
    unfold rowsFor
    exact List.mem_filter.mpr ⟨hrow, by simp⟩
  cases h0 : rowsFor hdr.saleID (leftJoin selected items) with
  | nil => rw [h0] at hrowk; cases hrowk
  | cons r0 rest =>
    have hr0 : r0 ∈ rowsFor hdr.saleID (leftJoin selected items) := by
      rw [h0]
      exact List.mem_cons_self r0 rest
    obtain ⟨hr0k, hr0rows⟩ := rowsFor_sale_key hr0
    have hr0sale : r0.sale = hdr :=
      hkuni r0.sale (leftJoin_sale_mem hr0rows) hr0k
    have hempty : liveItemsFor hdr.saleID (leftJoin selected items) = [] :=
      liveItemsFor_nil_of_no_items hno
    have hv := aggregate_mem_of_rowsFor g (leftJoin selected items) hdr.saleID r0 rest h0
    rw [hempty, extendAll_nil, hr0sale] at hv
    exact hv

/-- C3: `create_sale` writes its cart lines into the table named
`SaleItem` (singular) — one row per cart item, all owned by the new
SaleID — and leaves the `SaleItems` (plural) table untouched, while
both order-query endpoints read line items only from `SaleItems`;
consequently a processing-orders query and an all-orders query (run by
an admin, no filter) both return the freshly created order with an
empty item list, item count 0, and total 0 minus its stored discount
amount, no matter how many cart items were persisted.  The header
INSERT names no Status column; the schema default is taken to be
`processing`, which both queries' status filters include. -/
theorem claim_C3_saleitem_saleitems_mismatch
    (db : Database) (user quser : User) (sale : SaleReq) (now : Nat)
    (ing mat : Except String Unit)
    (hrole : roleAllowed user createSaleAllowedRoles = true)
    (hq : quser.userRole = some "admin")
    (hwf : ∀ i ∈ db.saleItems, ∃ s ∈ db.sales, i.saleID = s.saleID) :
    (∃ added : List SaleItemRow,
      (create_sale db user sale "processing" now none ing mat).db.saleItem =
        db.saleItem ++ added ∧
      added.length = sale.cartItems.length ∧
      ∀ r ∈ added, r.saleID = nextSaleId db) ∧
    (create_sale db user sale "processing" now none ing mat).db.saleItems =
      db.saleItems ∧
    (∃ views : List OrderView,
      get_processing_orders (create_sale db user sale "processing" now none ing mat).db
          quser none = .ok views ∧
      ∃ v ∈ views,
        v.id = "SO-" ++ toString (nextSaleId db) ∧ v.orderItems = [] ∧ v.items = 0 ∧
        v.total = 0 - (calculate_totals_and_discounts db.discounts sale).2.1) ∧
    (∃ views : List OrderView,
      get_all_orders (create_sale db user sale "processing" now none ing mat).db
          quser = .ok views ∧
      ∃ v ∈ views,
        v.id = "SO-" ++ toString (nextSaleId db) ∧ v.orderItems = [] ∧ v.items = 0 ∧
        v.total = 0 - (calculate_totals_and_discounts db.discounts sale).2.1) := by
  rw [create_sale_ok db user sale "processing" now ing mat hrole]
  obtain ⟨hsales, hitems, _hdisc, added, hsi, hlen, hown⟩ :=
    csWrites_db db user sale "processing" now
  set hdr := csHeaderRow db user sale "processing" now with hhdr
  set db2 := applySeq db (csWrites db user sale "processing" now) with hdb2
  have hkid : hdr.saleID = nextSaleId db := rfl
  have hnoitems : ∀ i ∈ db2.saleItems, i.saleID ≠ hdr.saleID := by
    intro i hi
    rw [hitems] at hi
    obtain ⟨s, hs, hisid⟩ := hwf i hi
    rw [hkid, hisid]
    exact ne_of_lt (nextSaleId_gt db s hs)
  have hmem2 : hdr ∈ db2.sales := by
    rw [hsales]
    exact List.mem_append_right _ (List.mem_singleton.mpr rfl)
  have huni : ∀ s ∈ db2.sales, s.saleID = hdr.saleID → s = hdr := by
    intro s hs hsid
    rw [hsales] at hs
    rcases List.mem_append.mp hs with h | h
    · exfalso
      have := nextSaleId_gt db s h
      rw [hsid, hkid] at this
      exact lt_irrefl _ this
    · exact List.mem_singleton.mp h
  refine ⟨⟨added, hsi, hlen, hown⟩, hitems, ?_, ?_⟩
  · have hqrole : roleAllowed quser processingQueryAllowedRoles = true := by
      unfold roleAllowed
      rw [hq]
      rfl
    refine ⟨_, get_processing_orders_ok db2 quser none hqrole, ?_⟩
    have hpred : processingPred quser none hdr = true := by
      unfold processingPred processingStatusPred truthy
      rw [hq]
      rfl
    have hsel : hdr ∈ processingSelectedSales db2 quser none := by
      unfold processingSelectedSales
      exact mem_insertionSort_iff.mpr (List.mem_filter.mpr ⟨hmem2, hpred⟩)
    have hseluni : ∀ s ∈ processingSelectedSales db2 quser none,
        s.saleID = hdr.saleID → s = hdr := by
      intro s hs
      unfold processingSelectedSales at hs
      exact huni s (List.mem_of_mem_filter (mem_insertionSort_iff.mp hs))
    refine ⟨finalizeEntry (initEntry false hdr),
      fresh_sale_empty_view false _ _ hdr hsel hseluni hnoitems, rfl, rfl, rfl, rfl⟩
  · have hqrole : roleAllowed quser allOrdersAllowedRoles = true := by
      unfold roleAllowed
      rw [hq]
      rfl
    refine ⟨_, get_all_orders_ok db2 quser hqrole, ?_⟩
    have hsel : hdr ∈ allOrdersSelectedSales db2 := by
      unfold allOrdersSelectedSales
      refine mem_insertionSort_iff.mpr (List.mem_filter.mpr ⟨hmem2, ?_⟩)
      unfold allOrdersStatusPred
      rfl
    have hseluni : ∀ s ∈ allOrdersSelectedSales db2,
        s.saleID = hdr.saleID → s = hdr := by
      intro s hs
      unfold allOrdersSelectedSales at hs
      exact huni s (List.mem_of_mem_filter (mem_insertionSort_iff.mp hs))
    refine ⟨finalizeEntry (initEntry true hdr),
      fresh_sale_empty_view true _ _ hdr hsel hseluni hnoitems, rfl, rfl, rfl, rfl⟩

/-- C3, witness: the table-mismatch theorem applied to the scenario
run — the plural `SaleItems` table that the queries join is untouched
by `create_sale`. -/
theorem claim_C3_witness :
    (create_sale demoDb demoStaff scenarioSale "processing" 5 none
      (.ok ()) (.ok ())).db.saleItems = demoDb.saleItems :=
  (claim_C3_saleitem_saleitems_mismatch demoDb demoStaff demoAdmin scenarioSale 5
    (.ok ()) (.ok ()) (by decide) rfl (by simp [demoDb])).2.1

/-! ## Role-scoped visibility lemmas -/

theorem staff_not_admin {r : String} (hmem : r ∈ ["staff", "cashier"]) :
    (r == "admin" || r == "manager") = false := by
  rcases List.mem_cons.mp hmem with h | h
  · rw [h]
    rfl
  · rw [List.mem_singleton.mp h]
    rfl

theorem staff_pred_ignores_filter (user : User) {r : String} (p : Option String)
    (hr : user.userRole = some r) (hmem : r ∈ ["staff", "cashier"]) :
    processingPred user p = processingPred user none := by
  funext s
  unfold processingPred
  rw [show user.userRole.getD "" = r from by rw [hr]; rfl]
  simp only [staff_not_admin hmem, Bool.false_eq_true, if_false]

theorem staff_role_allowed (user : User) {r : String}
    (hr : user.userRole = some r) (hmem : r ∈ ["staff", "cashier"]) :
    roleAllowed user processingQueryAllowedRoles = true := by
  unfold roleAllowed
  rw [hr]
  rcases List.mem_cons.mp hmem with h | h
  · rw [h]
    rfl
  · rw [List.mem_singleton.mp h]
    rfl

/-- C7: a staff or cashier caller gets exactly the same processing-order
result whether or not a cashierName filter is supplied (the filter is
ignored, never an error), and every order they receive carries their own
username as cashier; admin and manager callers with no (falsy) filter
see every processing/completed order of every cashier, and with a
nonempty filter see only the named cashier's orders. -/
theorem claim_C7_cashier_visibility :
    (∀ (db : Database) (user : User) (r : String) (p : Option String),
      user.userRole = some r → r ∈ ["staff", "cashier"] →
      get_processing_orders db user p = get_processing_orders db user none) ∧
    (∀ (db : Database) (user : User) (r : String) (p : Option String),
      user.userRole = some r → r ∈ ["staff", "cashier"] →
      ∃ views, get_processing_orders db user p = .ok views) ∧
    (∀ (db : Database) (user : User) (r u : String) (p : Option String)
        (views : List OrderView) (v : OrderView),
      user.userRole = some r → r ∈ ["staff", "cashier"] → user.username = some u →
      get_processing_orders db user p = .ok views → v ∈ views →
      v.cashierName = u) ∧
    (∀ (db : Database) (user : User) (r : String),
      user.userRole = some r → r ∈ ["admin", "manager"] →
      get_processing_orders db user none =
        .ok (aggregate false (leftJoin
          ((db.sales.filter processingStatusPred).insertionSort saleLEAsc)
          db.saleItems))) ∧
    (∀ (db : Database) (user : User) (r c : String)
        (views : List OrderView) (v : OrderView),
      user.userRole = some r → r ∈ ["admin", "manager"] → c ≠ "" →
      get_processing_orders db user (some c) = .ok views → v ∈ views →
      v.cashierName = c) := by
  have hadm_allowed : ∀ (user : User) (r : String), user.userRole = some r →
      r ∈ ["admin", "manager"] → roleAllowed user processingQueryAllowedRoles = true := by
    intro user r hr hmem
    unfold roleAllowed
    rw [hr]
    rcases List.mem_cons.mp hmem with h | h
    · rw [h]
      rfl
    · rw [List.mem_singleton.mp h]
      rfl
  have hadm_true : ∀ (r : String), r ∈ ["admin", "manager"] →
      (r == "admin" || r == "manager") = true := by
    intro r hmem
    rcases List.mem_cons.mp hmem with h | h
    · rw [h]
      rfl
    · rw [List.mem_singleton.mp h]
      rfl
  refine ⟨?_, ?_, ?_, ?_, ?_⟩
  · intro db user r p hr hmem
    unfold get_processing_orders processingSelectedSales
    rw [staff_pred_ignores_filter user p hr hmem]
  · intro db user r p hr hmem
    exact ⟨_, get_processing_orders_ok db user p (staff_role_allowed user hr hmem)⟩
  · intro db user r u p views v hr hmem hu h hv
    rw [get_processing_orders_ok_inv h] at hv
    obtain ⟨k, r0, rest, h0, _, _, _, hcash, _⟩ := aggregate_view_stats false _ v hv
    have hr0 : r0 ∈ rowsFor k (leftJoin (processingSelectedSales db user p)
        db.saleItems) := by
      rw [h0]
      exact List.mem_cons_self r0 rest
    obtain ⟨_, hrows⟩ := rowsFor_sale_key hr0
    have hsale : r0.sale ∈ processingSelectedSales db user p := leftJoin_sale_mem hrows
    unfold processingSelectedSales at hsale
    have hpred : processingPred user p r0.sale = true :=
      List.of_mem_filter (mem_insertionSort_iff.mp hsale)
    unfold processingPred at hpred
    rw [show user.userRole.getD "" = r from by rw [hr]; rfl] at hpred
    simp only [staff_not_admin hmem, Bool.false_eq_true, if_false, hu,
      Bool.and_eq_true] at hpred
    obtain ⟨_, hcmp⟩ := hpred
    rw [hcash]
    exact beq_iff_eq.mp (by simpa using hcmp)
  · intro db user r hr hmem
    rw [get_processing_orders_ok db user none (hadm_allowed user r hr hmem)]
    have hpred : processingPred user none = processingStatusPred := by
      funext s
      unfold processingPred truthy
      rw [show user.userRole.getD "" = r from by rw [hr]; rfl]
      simp [hadm_true r hmem]
    unfold processingSelectedSales
    rw [hpred]
  · intro db user r c views v hr hmem hc h hv
    rw [get_processing_orders_ok_inv h] at hv
    obtain ⟨k, r0, rest, h0, _, _, _, hcash, _⟩ := aggregate_view_stats false _ v hv
    have hr0 : r0 ∈ rowsFor k (leftJoin (processingSelectedSales db user (some c))
        db.saleItems) := by
      rw [h0]
      exact List.mem_cons_self r0 rest
    obtain ⟨_, hrows⟩ := rowsFor_sale_key hr0
    have hsale : r0.sale ∈ processingSelectedSales db user (some c) :=
      leftJoin_sale_mem hrows
    unfold processingSelectedSales at hsale
    have hpred : processingPred user (some c) r0.sale = true :=
      List.of_mem_filter (mem_insertionSort_iff.mp hsale)
    unfold processingPred at hpred
    rw [show user.userRole.getD "" = r from by rw [hr]; rfl] at hpred
    have hce : c.isEmpty = false := by
      cases hie : c.isEmpty with
      | false => rfl
      | true => exact absurd ((String.isEmpty_iff c).mp hie) hc
    have htr : truthy (some c) = true := by
      rw [show truthy (some c) = !c.isEmpty from rfl, hce]
      rfl
    simp only [hadm_true r hmem, htr, if_true, eq_self_iff_true,
      Bool.and_eq_true, Option.getD_some] at hpred
    obtain ⟨_, hcmp⟩ := hpred
    rw [hcash]
    exact beq_iff_eq.mp (by simpa using hcmp)

/-- C7, witness: a staff caller supplying another cashier's name as
filter gets exactly the same result as with no filter. -/
theorem claim_C7_witness :
    get_processing_orders demoDb5 demoStaff (some "bob") =
      get_processing_orders demoDb5 demoStaff none :=
  claim_C7_cashier_visibility.1 demoDb5 demoStaff "staff" (some "bob") rfl
    (by decide)

/-! ## Status-update lemmas -/

theorem update_commit_committed (db : Database) (w : Database → Database) :
    (connCommit (execWrite (get_db_connection db) w)).committed = w db := rfl

theorem update_rollback_committed (db : Database) (w : Database → Database) :
    (connRollback (execWrite (get_db_connection db) w)).committed = w db := rfl

theorem sales_map_noop {db : Database} {n : Int} (h : ∀ s ∈ db.sales, s.saleID ≠ n)
    (f : SaleRow → SaleRow) :
    db.sales.map (fun s => if s.saleID == n then f s else s) = db.sales := by
  conv_rhs => rw [← List.map_id db.sales]
  apply List.map_congr_left
  intro s hs
  rw [if_neg (by simpa using h s hs)]
  rfl

/-- C8: the status-update operation — whose target status is drawn from
the closed `Literal` set modelled by `NewStatus` — answers Forbidden for
any role outside admin/manager/staff/cashier; answers the
invalid-identifier 400 when the identifier (after stripping at the last
dash) does not parse as an integer, with the store untouched and the
outcome independent of the store (no database call was needed); answers
NotFound when the parsed id matches zero rows, leaving the store
unchanged; and otherwise reports success and rewrites exactly the rows
whose SaleID matches — every other row keeps its value, a matching row
changes only its status. -/
theorem claim_C8_status_update :
    (∀ (db : Database) (user : User) (oid : String) (st : NewStatus),
      roleAllowed user updateStatusAllowedRoles = false →
      update_order_status db user oid st =
        (.error (.forbidden "You do not have permission to update order status."), db)) ∧
    (∀ (db : Database) (user : User) (oid : String) (st : NewStatus),
      roleAllowed user updateStatusAllowedRoles = true →
      pyParseInt (lastSegment oid) = none →
      update_order_status db user oid st =
        (.error (.badRequest ("Invalid order ID format: " ++ oid)), db)) ∧
    (∀ (db db2 : Database) (user : User) (oid : String) (st : NewStatus),
      pyParseInt (lastSegment oid) = none →
      (update_order_status db user oid st).1 = (update_order_status db2 user oid st).1) ∧
    (∀ (db : Database) (user : User) (oid : String) (st : NewStatus) (n : Int),
      roleAllowed user updateStatusAllowedRoles = true →
      pyParseInt (lastSegment oid) = some n →
      (∀ s ∈ db.sales, s.saleID ≠ n) →
      update_order_status db user oid st =
        (.error (.notFound ("Order with ID " ++ oid ++ " not found.")), db)) ∧
    (∀ (db : Database) (user : User) (oid : String) (st : NewStatus) (n : Int)
        (s0 : SaleRow),
      roleAllowed user updateStatusAllowedRoles = true →
      pyParseInt (lastSegment oid) = some n →
      s0 ∈ db.sales → s0.saleID = n →
      update_order_status db user oid st =
        (.ok ("Order " ++ oid ++ " status successfully updated."),
         { db with sales := db.sales.map (fun s =>
             if s.saleID == n then { s with status := st.toStr } else s) })) := by
  refine ⟨?_, ?_, ?_, ?_, ?_⟩
  · intro db user oid st h
    unfold update_order_status
    rw [h]
    rfl
  · intro db user oid st hrole hparse
    unfold update_order_status
    rw [hrole]
    simp only [Bool.not_true, Bool.false_eq_true, if_false]
    rw [hparse]
  · intro db db2 user oid st hparse
    unfold update_order_status
    by_cases hrole : roleAllowed user updateStatusAllowedRoles
    · rw [hrole, hparse]
      rfl
    · rw [Bool.not_eq_true] at hrole
      rw [hrole]
      rfl
  · intro db user oid st n hrole hparse hno
    unfold update_order_status
    rw [hrole]
    simp only [Bool.not_true, Bool.false_eq_true, if_false]
    rw [hparse]
    have hfil : db.sales.filter (fun s => s.saleID == n) = [] := by
      rw [List.filter_eq_nil_iff]
      intro s hs
      simpa using hno s hs
    dsimp only
    rw [show (get_db_connection db).pending = db from rfl, hfil]
    rw [if_pos (show ((List.length ([] : List SaleRow)) == 0) = true from rfl)]
    rw [show ∀ w, (connRollback (execWrite (get_db_connection db) w)).committed = w db
      from fun w => rfl]
    rw [sales_map_noop hno]
  · intro db user oid st n s0 hrole hparse hmem hsid
    unfold update_order_status
    rw [hrole]
    simp only [Bool.not_true, Bool.false_eq_true, if_false]
    rw [hparse]
    dsimp only
    have hne : ((db.sales.filter (fun s => s.saleID == n)).length == 0) = false := by
      have hs0 : s0 ∈ db.sales.filter (fun s => s.saleID == n) :=
        List.mem_filter.mpr ⟨hmem, by simpa using hsid⟩
      cases hfil : db.sales.filter (fun s => s.saleID == n) with
      | nil => rw [hfil] at hs0; cases hs0
      | cons a t => rfl
    rw [show (get_db_connection db).pending = db from rfl, hne]
    simp only [Bool.false_eq_true, if_false]
    rw [show ∀ w, (connCommit (execWrite (get_db_connection db) w)).committed = w db
      from fun w => rfl]

/-- C8, witness: updating the demo completed sale via its display code
succeeds and rewrites its status, applied through the success branch of
the status-update theorem. -/
theorem claim_C8_witness :
    update_order_status demoDb5 demoAdmin "SO-3" .cancelled =
      (.ok ("Order " ++ "SO-3" ++ " status successfully updated."),
       { demoDb5 with sales := demoDb5.sales.map (fun s =>
           if s.saleID == (3 : Int) then { s with status := NewStatus.cancelled.toStr }
           else s) }) :=
  claim_C8_status_update.2.2.2.2 demoDb5 demoAdmin "SO-3" .cancelled 3
    demoCompletedSale (by decide) (by decide) (List.mem_singleton.mpr rfl) rfl

end SalesService
